import Mathlib

/-!
Verification of the freehand stroke-geometry engine of the math-tutor
whiteboard (point/segment distance, Ramer-Douglas-Peucker simplification,
stroke-eraser hit testing, shape recognition).  JavaScript numbers are
modelled as real numbers; `Math.sqrt` is `Real.sqrt`.  The recursive
simplifier is embedded with explicit fuel (an `Option` result, where
`none` models a recursion that never terminates in the source); every
other operation is a plain total function, exactly as in the source.
-/

namespace MathTutor

noncomputable section

/-- A point of the drawing surface (types.ts `Point`). -/
@[ext]
structure Point where
  x : ℝ
  y : ℝ

instance : Inhabited Point := ⟨⟨0, 0⟩⟩

/-- The drawing tool tag (types.ts `ToolType`). -/
inductive ToolType where
  | PEN | HIGHLIGHTER | ERASER | SELECT | HAND | LASER

/-- A stroke (types.ts `DrawingPath`): ordered points plus styling data. -/
structure DrawingPath where
  points : List Point
  color : String
  width : ℝ
  tool : ToolType
  opacity : ℝ
  isShape : Option Bool := none

/-- Euclidean distance between two points (geometry.ts `distance`). -/
def distance (p1 p2 : Point) : ℝ :=
  Real.sqrt ((p2.x - p1.x) ^ 2 + (p2.y - p1.y) ^ 2)

/-- Distance from a point to a closed segment (geometry.ts `distToSegment`):
`l2 := distance(v,w)^2`; if `l2 = 0` return `distance p v`, otherwise project
onto the line, clamp the parameter to `[0,1]` and measure to the projection. -/
def distToSegment (p v w : Point) : ℝ :=
  if (distance v w) ^ 2 = 0 then distance p v
  else
    distance p
      ⟨v.x + max 0 (min 1 (((p.x - v.x) * (w.x - v.x) + (p.y - v.y) * (w.y - v.y)) / (distance v w) ^ 2)) * (w.x - v.x),
       v.y + max 0 (min 1 (((p.x - v.x) * (w.x - v.x) + (p.y - v.y) * (w.y - v.y)) / (distance v w) ^ 2)) * (w.y - v.y)⟩

/-- The point `v + t (w - v)` of the segment `[v, w]`. -/
def segParam (v w : Point) (t : ℝ) : Point :=
  ⟨v.x + t * (w.x - v.x), v.y + t * (w.y - v.y)⟩

/-- The unclamped projection parameter of `p` onto the line through `v, w`
(the `t` of `distToSegment` before clamping; `0` when `v = w`). -/
def projParam (p v w : Point) : ℝ :=
  ((p.x - v.x) * (w.x - v.x) + (p.y - v.y) * (w.y - v.y)) / (distance v w) ^ 2

/-- Consecutive point pairs of a polyline: the segments it is made of. -/
def segPairs (l : List Point) : List (Point × Point) := l.zip l.tail

/-- `p` is within `ε` of the polyline through `l` (distance at most `ε`
from one of its segments; for a one-point polyline, from that point). -/
def nearPolyline (p : Point) (l : List Point) (ε : ℝ) : Prop :=
  (∃ q, l = [q] ∧ distance p q ≤ ε) ∨
    ∃ vw ∈ segPairs l, distToSegment p vw.1 vw.2 ≤ ε

/-- One iteration of the farthest-point scan of `simplifyPoints`: carry
`(dmax, index)` and replace it when point `i` is strictly farther from the
segment joining the first and last points. -/
def rdpStep (pts : List Point) (acc : ℝ × ℕ) (i : ℕ) : ℝ × ℕ :=
  if acc.1 < distToSegment (pts.getD i default) (pts.getD 0 default)
      (pts.getD (pts.length - 1) default)
  then (distToSegment (pts.getD i default) (pts.getD 0 default)
      (pts.getD (pts.length - 1) default), i)
  else acc

/-- The `(dmax, index)` pair computed by the `for` loop of `simplifyPoints`:
scan indices `1 .. length-2` starting from `(0, 0)`. -/
def rdpFarthest (pts : List Point) : ℝ × ℕ :=
  (List.range' 1 (pts.length - 1 - 1)).foldl (rdpStep pts) (0, 0)

/-- Distance of point `i` to the segment joining the first and last points
(the quantity scanned by the loop of `simplifyPoints`). -/
def endSegDist (pts : List Point) (i : ℕ) : ℝ :=
  distToSegment (pts.getD i default) (pts.getD 0 default) (pts.getD (pts.length - 1) default)

/-- Fuelled embedding of the recursive `simplifyPoints` (Ramer-Douglas-
Peucker).  `none` means the fuel ran out; with the fuel used by
`simplifyPoints` below this happens exactly when the source recursion
never terminates (it recurses on `points.slice(index)` with `index = 0`,
which is only possible when `dmax = 0 > epsilon`). -/
def simplifyAux : ℕ → List Point → ℝ → Option (List Point)
  | 0, _, _ => none
  | fuel + 1, points, ε =>
    if points.length < 3 then some points
    else
      if (rdpFarthest points).1 > ε then
        match simplifyAux fuel (points.take ((rdpFarthest points).2 + 1)) ε,
              simplifyAux fuel (points.drop (rdpFarthest points).2) ε with
        | some res1, some res2 => some (res1.dropLast ++ res2)
        | _, _ => none
      else some [points.getD 0 default, points.getD (points.length - 1) default]

/-- geometry.ts `simplifyPoints`.  The fuel `length + 1` bounds the
recursion depth of every terminating run of the source. -/
def simplifyPoints (points : List Point) (ε : ℝ) : Option (List Point) :=
  simplifyAux (points.length + 1) points ε

/-- The source recursion on `points` with tolerance `ε` never terminates:
no amount of fuel produces a result. -/
def divergesAt (points : List Point) (ε : ℝ) : Prop :=
  ∀ fuel, simplifyAux fuel points ε = none

/-- `Math.min(...xs)` over the x coordinates (0 for the empty list, which
no caller reaches). -/
def minXs : List Point → ℝ
  | [] => 0
  | p :: rest => rest.foldl (fun m q => min m q.x) p.x

/-- `Math.max(...xs)` over the x coordinates. -/
def maxXs : List Point → ℝ
  | [] => 0
  | p :: rest => rest.foldl (fun m q => max m q.x) p.x

/-- `Math.min(...ys)` over the y coordinates. -/
def minYs : List Point → ℝ
  | [] => 0
  | p :: rest => rest.foldl (fun m q => min m q.y) p.y

/-- `Math.max(...ys)` over the y coordinates. -/
def maxYs : List Point → ℝ
  | [] => 0
  | p :: rest => rest.foldl (fun m q => max m q.y) p.y

/-- Sum of the distances between consecutive points (the `reduce` of
`recognizeShape` computing `totalLength`). -/
def totalLength (pts : List Point) : ℝ :=
  (segPairs pts).foldl (fun acc vw => acc + distance vw.1 vw.2) 0

/-- geometry.ts `isPointNearPath`: stroke-eraser hit test with the
bounding-box pre-filter expanded by `threshold`. -/
def isPointNearPath (point : Point) (path : DrawingPath) (threshold : ℝ) : Bool :=
  if path.points.length < 2 then false
  else
    if point.x < minXs path.points - threshold ∨ point.x > maxXs path.points + threshold ∨
        point.y < minYs path.points - threshold ∨ point.y > maxYs path.points + threshold
    then false
    else
      (segPairs path.points).any fun vw =>
        decide (distToSegment point vw.1 vw.2 < threshold + path.width / 2)

/-- The unfiltered hit test the specification compares against: only the
per-segment distance check, no bounding-box pre-filter. -/
def isPointNearPathUnfiltered (point : Point) (path : DrawingPath) (threshold : ℝ) : Bool :=
  (segPairs path.points).any fun vw =>
    decide (distToSegment point vw.1 vw.2 < threshold + path.width / 2)

/-- Bounding-box width of a point list (`maxX - minX`). -/
def bbWidth (pts : List Point) : ℝ := maxXs pts - minXs pts

/-- Bounding-box height of a point list (`maxY - minY`). -/
def bbHeight (pts : List Point) : ℝ := maxYs pts - minYs pts

/-- Bounding-box diagonal of a point list. -/
def rsDiagonal (pts : List Point) : ℝ :=
  Real.sqrt (bbWidth pts * bbWidth pts + bbHeight pts * bbHeight pts)

/-- The simplification tolerance of `recognizeShape`: `diagonal * 0.05`. -/
def rsEpsilon (pts : List Point) : ℝ := rsDiagonal pts * 0.05

/-- The simplified polygon computed inside `recognizeShape`.  The default
`[]` is never used: the tolerance is nonnegative, so the simplifier
always returns a value (theorem `simplifyPoints_isSome`). -/
def rsSimplified (pts : List Point) : List Point :=
  (simplifyPoints pts (rsEpsilon pts)).getD []

/-- `n`, the number of distinct simplified vertices (`simplified.length - 1`). -/
def rsN (pts : List Point) : ℕ := (rsSimplified pts).length - 1

/-- The bounding-box center used by the closed-shape branch. -/
def rsCenter (pts : List Point) : Point :=
  ⟨minXs pts + bbWidth pts / 2, minYs pts + bbHeight pts / 2⟩

/-- Distances of the `n` simplified vertices to the bounding-box center. -/
def rsDists (pts : List Point) : List ℝ :=
  ((rsSimplified pts).take (rsN pts)).map fun p => distance p (rsCenter pts)

/-- Mean of the vertex-to-center distances (`avgDist`). -/
def rsAvg (pts : List Point) : ℝ :=
  (rsDists pts).foldl (· + ·) 0 / (rsN pts : ℝ)

/-- Population variance of the vertex-to-center distances. -/
def rsVariance (pts : List Point) : ℝ :=
  (rsDists pts).foldl (fun a b => a + (b - rsAvg pts) ^ 2) 0 / (rsN pts : ℝ)

/-- Standard deviation of the vertex-to-center distances. -/
def rsStdDev (pts : List Point) : ℝ := Real.sqrt (rsVariance pts)

/-- Coefficient of variation `stdDev / avgDist` (circularity measure). -/
def rsCv (pts : List Point) : ℝ := rsStdDev pts / rsAvg pts

/-- The 46-point (45 segments plus closing point) ellipse returned for a
circular closed stroke: axis-aligned, parametrized by the bounding box's
half-width and half-height around its center. -/
def ellipsePoints (pts : List Point) : List Point :=
  (List.range 46).map fun (i : ℕ) =>
    ⟨(rsCenter pts).x + bbWidth pts / 2 * Real.cos ((i : ℝ) / 45 * Real.pi * 2),
     (rsCenter pts).y + bbHeight pts / 2 * Real.sin ((i : ℝ) / 45 * Real.pi * 2)⟩

/-- geometry.ts `recognizeShape`: `none` models the JavaScript `null`. -/
def recognizeShape (points : List Point) : Option (List Point) :=
  if points.length < 10 then none
  else
    if distance (points.getD 0 default) (points.getD (points.length - 1) default) <
        totalLength points * 0.25 then
      if rsN points = 3 then some ((rsSimplified points).take 3)
      else if rsN points = 4 then
        some [⟨minXs points, minYs points⟩, ⟨maxXs points, minYs points⟩,
              ⟨maxXs points, maxYs points⟩, ⟨minXs points, maxYs points⟩]
      else if 5 ≤ rsN points then
        if rsCv points < 0.15 then some (ellipsePoints points)
        else some ((rsSimplified points).take (rsN points))
      else none
    else
      if totalLength points <
          distance (points.getD 0 default) (points.getD (points.length - 1) default) * 1.2 then
        some [points.getD 0 default, points.getD (points.length - 1) default]
      else none

/-! ### Concrete example inputs -/

/-- Three collinear points: the simplifier recursion never terminates on
them when the tolerance is negative. -/
def colPts : List Point := [⟨0, 0⟩, ⟨1, 0⟩, ⟨2, 0⟩]

/-- A 10-point trace of a 100x100 square (corners visited twice),
simplifying to `n = 4` vertices. -/
def sqPts : List Point :=
  [⟨0, 0⟩, ⟨0, 0⟩, ⟨100, 0⟩, ⟨100, 0⟩, ⟨100, 100⟩, ⟨100, 100⟩,
   ⟨0, 100⟩, ⟨0, 100⟩, ⟨0, 0⟩, ⟨0, 0⟩]

/-- A 10-point closed octagon trace on the circle of radius 25 around the
origin, simplifying to `n = 8` equidistant vertices. -/
def octPts : List Point :=
  [⟨25, 0⟩, ⟨25, 0⟩, ⟨15, 20⟩, ⟨0, 25⟩, ⟨-15, 20⟩, ⟨-25, 0⟩,
   ⟨-15, -20⟩, ⟨0, -25⟩, ⟨15, -20⟩, ⟨25, 0⟩]

/-- Ten collinear points on the x axis, a clean straight-line stroke. -/
def linePts : List Point :=
  [⟨0, 0⟩, ⟨1, 0⟩, ⟨2, 0⟩, ⟨3, 0⟩, ⟨4, 0⟩, ⟨5, 0⟩, ⟨6, 0⟩, ⟨7, 0⟩, ⟨8, 0⟩, ⟨9, 0⟩]

/-- A wide horizontal stroke: its rendered thickness reaches beyond the
bounding box expanded by the threshold alone. -/
def widePath : DrawingPath := ⟨[⟨0, 0⟩, ⟨10, 0⟩], "", 10, ToolType.PEN, 1, none⟩

/-- A thin two-point stroke used by the hit-test witnesses. -/
def thinPath : DrawingPath := ⟨[⟨0, 0⟩, ⟨2, 0⟩], "", 0, ToolType.PEN, 1, none⟩

end

/-! ### Basic geometry lemmas -/

@[simp] theorem Point.x_mk (a b : ℝ) : (⟨a, b⟩ : Point).x = a := rfl

@[simp] theorem Point.y_mk (a b : ℝ) : (⟨a, b⟩ : Point).y = b := rfl

theorem distance_nonneg (p q : Point) : 0 ≤ distance p q := Real.sqrt_nonneg _

theorem sq_distance (v w : Point) :
    (distance v w) ^ 2 = (w.x - v.x) ^ 2 + (w.y - v.y) ^ 2 :=
  Real.sq_sqrt (by positivity)

theorem distance_self (p : Point) : distance p p = 0 := by
  simp [distance]

theorem distance_eq_zero_iff (p q : Point) : distance p q = 0 ↔ p = q := by
  unfold distance
  rw [show (0:ℝ) = Real.sqrt 0 by simp]
  rw [Real.sqrt_inj (by positivity) le_rfl]
  constructor
  · intro h
    have hx : (q.x - p.x) ^ 2 = 0 ∧ (q.y - p.y) ^ 2 = 0 := by
      constructor <;> nlinarith [sq_nonneg (q.x - p.x), sq_nonneg (q.y - p.y)]
    ext <;> nlinarith [hx.1, hx.2]
  · rintro rfl; ring

theorem distToSegment_nonneg (p v w : Point) : 0 ≤ distToSegment p v w := by
  unfold distToSegment
  split <;> exact distance_nonneg _ _

theorem distToSegment_self_left (v w : Point) : distToSegment v v w = 0 := by
  unfold distToSegment
  split
  · exact distance_self v
  · simp only [sub_self, zero_mul, mul_zero, add_zero, zero_div, zero_add]
    rw [show (0:ℝ) ⊔ 1 ⊓ 0 = 0 by rw [min_eq_right (by norm_num : (0:ℝ) ≤ 1)]; exact max_self 0]
    simpa using distance_self v

theorem distToSegment_self_right (v w : Point) : distToSegment w v w = 0 := by
  unfold distToSegment
  split
  · rename_i h
    rw [sq_distance] at h
    have hx : w.x = v.x := by nlinarith [sq_nonneg (w.x - v.x), sq_nonneg (w.y - v.y)]
    have hy : w.y = v.y := by nlinarith [sq_nonneg (w.x - v.x), sq_nonneg (w.y - v.y)]
    rw [show v = w by ext <;> simp [hx, hy]]
    exact distance_self w
  · rename_i h
    have ht : ((w.x - v.x) * (w.x - v.x) + (w.y - v.y) * (w.y - v.y)) / (distance v w)^2 = 1 := by
      rw [sq_distance]
      rw [sq_distance] at h
      field_simp
      ring
    rw [ht]
    rw [show (0:ℝ) ⊔ 1 ⊓ 1 = 1 by rw [min_self]; exact max_eq_right (by norm_num)]
    have : (⟨v.x + 1 * (w.x - v.x), v.y + 1 * (w.y - v.y)⟩ : Point) = w := by
      ext <;> simp
    rw [this]
    exact distance_self w

/-! ### Evaluation helpers for concrete inputs -/

theorem sqrt_eq_of_sq (r a : ℝ) (hr : 0 ≤ r) (h : r ^ 2 = a) : Real.sqrt a = r := by
  rw [← h, Real.sqrt_sq hr]

theorem distance_mk (x1 y1 x2 y2 : ℝ) :
    distance ⟨x1, y1⟩ ⟨x2, y2⟩ = Real.sqrt ((x2 - x1) ^ 2 + (y2 - y1) ^ 2) := rfl

theorem distToSegment_eval (p v w : Point) (c t : ℝ)
    (hc : (w.x - v.x) ^ 2 + (w.y - v.y) ^ 2 = c) (hc0 : ¬ c = 0)
    (ht : ((p.x - v.x) * (w.x - v.x) + (p.y - v.y) * (w.y - v.y)) / c = t) :
    distToSegment p v w =
      distance p ⟨v.x + max 0 (min 1 t) * (w.x - v.x), v.y + max 0 (min 1 t) * (w.y - v.y)⟩ := by
  have hsq : (distance v w) ^ 2 = c := by rw [sq_distance, hc]
  unfold distToSegment
  rw [hsq, if_neg hc0, ht]

theorem distToSegment_eval_zero (p v w : Point)
    (hc : (w.x - v.x) ^ 2 + (w.y - v.y) ^ 2 = 0) :
    distToSegment p v w = distance p v := by
  have hsq : (distance v w) ^ 2 = 0 := by rw [sq_distance, hc]
  unfold distToSegment
  rw [hsq, if_pos rfl]

/-! ### List micro-lemmas -/

theorem head?_dropLast {α : Type} (l : List α) (h : 2 ≤ l.length) :
    l.dropLast.head? = l.head? := by
  match l, h with
  | a :: b :: t, _ => simp

theorem head?_take_succ {α : Type} (l : List α) (n : ℕ) :
    (l.take (n + 1)).head? = l.head? := by
  cases l <;> simp

theorem take_succ_eq (pts : List Point) (i : ℕ) (hi : i < pts.length) :
    pts.take (i + 1) = pts.take i ++ [pts.getD i default] := by
  rw [List.take_succ, List.getElem?_eq_getElem hi, List.getD_eq_getElem _ _ hi]
  rfl

theorem getLast?_take_succ (pts : List Point) (i : ℕ) (hi : i < pts.length) :
    (pts.take (i + 1)).getLast? = some (pts.getD i default) := by
  rw [take_succ_eq pts i hi]
  simp

theorem head?_drop_eq (pts : List Point) (i : ℕ) (hi : i < pts.length) :
    (pts.drop i).head? = some (pts.getD i default) := by
  rw [List.head?_eq_getElem?, List.getElem?_drop, Nat.add_zero,
    List.getElem?_eq_getElem hi, List.getD_eq_getElem _ _ hi]

theorem getLast?_drop_eq (pts : List Point) (i : ℕ) (hi : i < pts.length) :
    (pts.drop i).getLast? = pts.getLast? := by
  rw [List.getLast?_eq_getElem?, List.getLast?_eq_getElem?, List.getElem?_drop,
    List.length_drop]
  congr 1
  omega

theorem sublist_head_getLast : ∀ (pts : List Point), 2 ≤ pts.length →
    List.Sublist [pts.getD 0 default, pts.getD (pts.length - 1) default] pts := by
  intro pts h
  match pts, h with
  | a :: b :: t, _ =>
    have h0 : (a :: b :: t).getD 0 default = a := rfl
    have hlen : (a :: b :: t).length - 1 = t.length + 1 := by simp
    rw [h0, hlen, List.getD_cons_succ]
    refine List.cons_sublist_cons.mpr (List.singleton_sublist.mpr ?_)
    have h2 : (b :: t).getD t.length default = (b :: t).getLast (by simp) := by
      rw [List.getD_eq_getElem _ _ (by simp), List.getLast_eq_getElem]
      simp
    rw [h2]
    exact List.getLast_mem _

/-! ### Facts about the farthest-point scan -/

theorem rdpStep_eq (pts : List Point) (acc : ℝ × ℕ) (i : ℕ) :
    rdpStep pts acc i =
      if acc.1 < endSegDist pts i then (endSegDist pts i, i) else acc := rfl

theorem rdpFold_cases (pts : List Point) : ∀ (l : List ℕ) (acc : ℝ × ℕ),
    l.foldl (rdpStep pts) acc = acc ∨
      ∃ i ∈ l, l.foldl (rdpStep pts) acc = (endSegDist pts i, i)
  | [], acc => Or.inl rfl
  | i :: l, acc => by
    rw [List.foldl_cons]
    rcases rdpFold_cases pts l (rdpStep pts acc i) with h | ⟨j, hj, h⟩
    · rw [h, rdpStep_eq]
      split
      · exact Or.inr ⟨i, List.mem_cons_self i l, rfl⟩
      · exact Or.inl rfl
    · exact Or.inr ⟨j, List.mem_cons_of_mem _ hj, h⟩

theorem rdpFold_fst_le (pts : List Point) : ∀ (l : List ℕ) (acc : ℝ × ℕ),
    acc.1 ≤ (l.foldl (rdpStep pts) acc).1
  | [], _ => le_rfl
  | i :: l, acc => by
    rw [List.foldl_cons]
    refine le_trans ?_ (rdpFold_fst_le pts l (rdpStep pts acc i))
    rw [rdpStep_eq]
    split
    · rename_i hlt; exact le_of_lt hlt
    · exact le_rfl

theorem rdpFold_ge (pts : List Point) : ∀ (l : List ℕ) (acc : ℝ × ℕ) (i : ℕ), i ∈ l →
    endSegDist pts i ≤ (l.foldl (rdpStep pts) acc).1
  | j :: l, acc, i, hi => by
    rw [List.foldl_cons]
    rcases List.mem_cons.mp hi with rfl | hmem
    · refine le_trans ?_ (rdpFold_fst_le pts l (rdpStep pts acc i))
      rw [rdpStep_eq]
      split
      · exact le_rfl
      · rename_i hnlt; exact le_of_not_lt hnlt
    · exact rdpFold_ge pts l (rdpStep pts acc j) i hmem

theorem rdpFarthest_cases (pts : List Point) :
    rdpFarthest pts = (0, 0) ∨
      ∃ i, 1 ≤ i ∧ i ≤ pts.length - 2 ∧ rdpFarthest pts = (endSegDist pts i, i) := by
  rcases rdpFold_cases pts (List.range' 1 (pts.length - 1 - 1)) (0, 0) with h | ⟨i, hi, h⟩
  · exact Or.inl h
  · rw [List.mem_range'_1] at hi
    exact Or.inr ⟨i, hi.1, by omega, h⟩

theorem rdpFarthest_ge (pts : List Point) (i : ℕ) (h1 : 1 ≤ i) (h2 : i < pts.length - 1) :
    endSegDist pts i ≤ (rdpFarthest pts).1 :=
  rdpFold_ge pts _ _ i (List.mem_range'_1.mpr ⟨h1, by omega⟩)

theorem rdpFarthest_fst_nonneg (pts : List Point) : 0 ≤ (rdpFarthest pts).1 :=
  rdpFold_fst_le pts _ (0, 0)

/-! ### Structural facts about the simplifier -/

theorem simplifyAux_succ (fuel : ℕ) (points : List Point) (ε : ℝ) :
    simplifyAux (fuel + 1) points ε =
      if points.length < 3 then some points
      else
        if (rdpFarthest points).1 > ε then
          match simplifyAux fuel (points.take ((rdpFarthest points).2 + 1)) ε,
                simplifyAux fuel (points.drop (rdpFarthest points).2) ε with
          | some res1, some res2 => some (res1.dropLast ++ res2)
          | _, _ => none
        else some [points.getD 0 default, points.getD (points.length - 1) default] := rfl

theorem simplifyAux_spec : ∀ (fuel : ℕ) (pts : List Point) (ε : ℝ) (l : List Point),
    simplifyAux fuel pts ε = some l →
    l.Sublist pts ∧ l.head? = pts.head? ∧ l.getLast? = pts.getLast? ∧
      (2 ≤ pts.length → 2 ≤ l.length) := by
  intro fuel
  induction fuel with
  | zero => intro pts ε l h; simp [simplifyAux] at h
  | succ fuel ih =>
    intro pts ε l h
    rw [simplifyAux_succ] at h
    by_cases h3 : pts.length < 3
    · rw [if_pos h3] at h
      obtain rfl : pts = l := Option.some.inj h
      exact ⟨List.Sublist.refl _, rfl, rfl, fun h2 => h2⟩
    · rw [if_neg h3] at h
      have hlen3 : 3 ≤ pts.length := by omega
      by_cases hgt : (rdpFarthest pts).1 > ε
      · rw [if_pos hgt] at h
        rcases rdpFarthest_cases pts with hc | ⟨j, hj1, hj2, hc⟩
        · -- index 0: the first call gets the singleton `take 1`
          have hi0 : (rdpFarthest pts).2 = 0 := by rw [hc]
          rw [hi0] at h
          rcases hr1 : simplifyAux fuel (pts.take (0 + 1)) ε with _ | r1
          · rw [hr1] at h; simp at h
          rcases hr2 : simplifyAux fuel (pts.drop 0) ε with _ | r2
          · rw [hr1, hr2] at h; simp at h
          rw [hr1, hr2] at h
          have h' : some (r1.dropLast ++ r2) = some l := h
          obtain rfl : r1.dropLast ++ r2 = l := Option.some.inj h'
          obtain ⟨s1, hh1, hl1, _⟩ := ih _ _ _ hr1
          obtain ⟨s2, hh2, hl2, hlen2⟩ := ih _ _ _ hr2
          have hne : pts ≠ [] := by intro he; rw [he] at hlen3; simp at hlen3
          have htake1 : pts.take (0 + 1) = [pts.getD 0 default] := by
            match pts, hne with
            | a :: t, _ => simp
          have hr1ne : r1 ≠ [] := by
            intro he
            rw [he, htake1] at hh1
            simp at hh1
          have hr1eq : r1 = [pts.getD 0 default] := by
            rw [htake1] at s1
            rcases List.sublist_singleton.mp s1 with he | he
            · exact absurd he hr1ne
            · exact he
          rw [hr1eq]
          simp only [List.dropLast_single, List.nil_append]
          have hdrop : pts.drop 0 = pts := by simp
          rw [hdrop] at s2 hh2 hl2 hlen2
          exact ⟨s2, hh2, hl2, hlen2⟩
        · have hij : (rdpFarthest pts).2 = j := by rw [hc]
          rw [hij] at h
          rcases hr1 : simplifyAux fuel (pts.take (j + 1)) ε with _ | r1
          · rw [hr1] at h; simp at h
          rcases hr2 : simplifyAux fuel (pts.drop j) ε with _ | r2
          · rw [hr1, hr2] at h; simp at h
          rw [hr1, hr2] at h
          have h' : some (r1.dropLast ++ r2) = some l := h
          obtain rfl : r1.dropLast ++ r2 = l := Option.some.inj h'
          have hj : j < pts.length := by omega
          obtain ⟨s1, hh1, hl1, hlen1⟩ := ih _ _ _ hr1
          obtain ⟨s2, hh2, hl2, hlen2⟩ := ih _ _ _ hr2
          have htl : (pts.take (j + 1)).length = j + 1 := by
            rw [List.length_take]; omega
          have hr1len : 2 ≤ r1.length := hlen1 (by rw [htl]; omega)
          have hr1ne : r1 ≠ [] := by intro he; rw [he] at hr1len; simp at hr1len
          have hr2ne : r2 ≠ [] := by
            intro he
            rw [he] at hh2
            rw [head?_drop_eq pts j hj] at hh2
            simp at hh2
          have hlast1 : r1.getLast? = some (pts.getD j default) := by
            rw [hl1, getLast?_take_succ pts j hj]
          have hr1decomp : r1.dropLast ++ [pts.getD j default] = r1 := by
            have := List.dropLast_append_getLast hr1ne
            rw [List.getLast?_eq_getLast r1 hr1ne] at hlast1
            rw [← Option.some.inj hlast1]
            exact this
          constructor
          · -- sublist
            rw [← List.take_append_drop j pts]
            refine List.Sublist.append ?_ s2
            have : List.Sublist (r1.dropLast ++ [pts.getD j default])
                (pts.take j ++ [pts.getD j default]) := by
              rw [hr1decomp, ← take_succ_eq pts j hj]
              exact s1
            exact (List.append_sublist_append_right _).mp this
          refine ⟨?_, ?_, ?_⟩
          · -- head?
            rw [List.head?_append, head?_dropLast r1 hr1len, hh1, head?_take_succ]
            match pts, hlen3 with
            | a :: t, _ => simp
          · -- getLast?
            rw [List.getLast?_append]
            rw [hl2, getLast?_drop_eq pts j hj]
            match pts, hlen3 with
            | a :: t, _ => simp [List.getLast?_eq_getElem?]
          · -- length
            intro _
            have h2r2 : 2 ≤ r2.length := hlen2 (by rw [List.length_drop]; omega)
            rw [List.length_append]
            omega
      · rw [if_neg hgt] at h
        obtain rfl : [pts.getD 0 default, pts.getD (pts.length - 1) default] = l :=
          Option.some.inj h
        refine ⟨sublist_head_getLast pts (by omega), ?_, ?_, fun _ => by simp⟩
        · have h0 : (0 : ℕ) < pts.length := by omega
          have hh : ([pts.getD 0 default, pts.getD (pts.length - 1) default]).head? =
              some (pts.getD 0 default) := rfl
          rw [hh, List.head?_eq_getElem?, List.getElem?_eq_getElem h0,
            List.getD_eq_getElem _ _ h0]
        · have hidx : pts.length - 1 < pts.length := by omega
          have hL : ([pts.getD 0 default, pts.getD (pts.length - 1) default]).getLast? =
              some (pts.getD (pts.length - 1) default) := rfl
          rw [hL, List.getLast?_eq_getElem?, List.getElem?_eq_getElem hidx,
            List.getD_eq_getElem _ _ hidx]

theorem simplifyAux_isSome : ∀ (fuel : ℕ) (pts : List Point) (ε : ℝ), 0 ≤ ε →
    pts.length < fuel → (simplifyAux fuel pts ε).isSome := by
  intro fuel
  induction fuel with
  | zero => intro pts ε hε hlen; omega
  | succ fuel ih =>
    intro pts ε hε hlen
    rw [simplifyAux_succ]
    by_cases h3 : pts.length < 3
    · rw [if_pos h3]; rfl
    · rw [if_neg h3]
      by_cases hgt : (rdpFarthest pts).1 > ε
      · rw [if_pos hgt]
        rcases rdpFarthest_cases pts with hc | ⟨j, hj1, hj2, hc⟩
        · have h0 : (rdpFarthest pts).1 = 0 := by rw [hc]
          rw [h0] at hgt
          linarith
        · have hij : (rdpFarthest pts).2 = j := by rw [hc]
          rw [hij]
          have h1 := ih (pts.take (j + 1)) ε hε (by rw [List.length_take]; omega)
          have h2 := ih (pts.drop j) ε hε (by rw [List.length_drop]; omega)
          obtain ⟨r1, e1⟩ := Option.isSome_iff_exists.mp h1
          obtain ⟨r2, e2⟩ := Option.isSome_iff_exists.mp h2
          rw [e1, e2]
          rfl
      · rw [if_neg hgt]; rfl

theorem simplifyPoints_isSome (pts : List Point) (ε : ℝ) (hε : 0 ≤ ε) :
    (simplifyPoints pts ε).isSome :=
  simplifyAux_isSome _ pts ε hε (Nat.lt_succ_self _)

/-! ### Segment-pair bookkeeping for the deviation bound -/

theorem segPairs_cons_cons (a b : Point) (t : List Point) :
    segPairs (a :: b :: t) = (a, b) :: segPairs (b :: t) := rfl

theorem segPairs_dropLast_append : ∀ (l1 l2 : List Point), l2 ≠ [] →
    l1.getLast? = l2.head? →
    segPairs (l1.dropLast ++ l2) = segPairs l1 ++ segPairs l2
  | [], l2, h2, hlink => by
    cases l2 with
    | nil => exact absurd rfl h2
    | cons c t2 => simp at hlink
  | [a], l2, h2, hlink => by
    simp [segPairs]
  | a :: b :: t, l2, h2, hlink => by
    have hlink' : (b :: t).getLast? = l2.head? := by
      rw [← hlink]
      simp
    have ih := segPairs_dropLast_append (b :: t) l2 h2 hlink'
    have hXhead : ((b :: t).dropLast ++ l2).head? = some b := by
      cases t with
      | nil =>
        simp only [List.dropLast_single, List.nil_append]
        rw [← hlink']
        simp
      | cons c t' => simp
    obtain ⟨X', hX⟩ : ∃ X', (b :: t).dropLast ++ l2 = b :: X' := by
      cases hXX : (b :: t).dropLast ++ l2 with
      | nil => rw [hXX] at hXhead; simp at hXhead
      | cons x xs =>
        rw [hXX] at hXhead
        simp only [List.head?_cons, Option.some.injEq] at hXhead
        exact ⟨xs, by rw [hXhead]⟩
    have hdl : (a :: b :: t).dropLast ++ l2 = a :: ((b :: t).dropLast ++ l2) := by
      simp
    rw [hdl, hX, segPairs_cons_cons, ← hX, ih, segPairs_cons_cons]
    rfl

/-- Every point of the input is within `ε` of the simplified polyline
(the Douglas-Peucker deviation guarantee), for nonnegative tolerances. -/
theorem simplifyAux_near : ∀ (fuel : ℕ) (pts : List Point) (ε : ℝ) (l : List Point),
    0 ≤ ε → simplifyAux fuel pts ε = some l → ∀ p ∈ pts, nearPolyline p l ε := by
  intro fuel
  induction fuel with
  | zero => intro pts ε l hε h; simp [simplifyAux] at h
  | succ fuel ih =>
    intro pts ε l hε h
    rw [simplifyAux_succ] at h
    by_cases h3 : pts.length < 3
    · rw [if_pos h3] at h
      obtain rfl : pts = l := Option.some.inj h
      intro p hp
      match pts, h3, hp with
      | [], _, hp => exact absurd hp (by simp)
      | [q], _, hp =>
        have hpq : p = q := by simpa using hp
        exact Or.inl ⟨q, rfl, by rw [hpq, distance_self]; exact hε⟩
      | [a, b], _, hp =>
        rcases by simpa using hp with rfl | rfl
        · exact Or.inr ⟨(p, b), by simp [segPairs], by
            rw [distToSegment_self_left]; exact hε⟩
        · exact Or.inr ⟨(a, p), by simp [segPairs], by
            rw [distToSegment_self_right]; exact hε⟩
    · rw [if_neg h3] at h
      have hlen3 : 3 ≤ pts.length := by omega
      by_cases hgt : (rdpFarthest pts).1 > ε
      · rw [if_pos hgt] at h
        rcases rdpFarthest_cases pts with hc | ⟨j, hj1, hj2, hc⟩
        · have h0 : (rdpFarthest pts).1 = 0 := by rw [hc]
          rw [h0] at hgt
          exact absurd hε (by linarith)
        · have hij : (rdpFarthest pts).2 = j := by rw [hc]
          rw [hij] at h
          rcases hr1 : simplifyAux fuel (pts.take (j + 1)) ε with _ | r1
          · rw [hr1] at h; simp at h
          rcases hr2 : simplifyAux fuel (pts.drop j) ε with _ | r2
          · rw [hr1, hr2] at h; simp at h
          rw [hr1, hr2] at h
          have h' : some (r1.dropLast ++ r2) = some l := h
          obtain rfl : r1.dropLast ++ r2 = l := Option.some.inj h'
          have hj : j < pts.length := by omega
          obtain ⟨_, hh1, hl1, hlen1⟩ := simplifyAux_spec _ _ _ _ hr1
          obtain ⟨_, hh2, _, hlen2⟩ := simplifyAux_spec _ _ _ _ hr2
          have hr1len : 2 ≤ r1.length := hlen1 (by rw [List.length_take]; omega)
          have hr2len : 2 ≤ r2.length := hlen2 (by rw [List.length_drop]; omega)
          have hr2ne : r2 ≠ [] := by intro he; rw [he] at hr2len; simp at hr2len
          have hlink : r1.getLast? = r2.head? := by
            rw [hl1, getLast?_take_succ pts j hj, hh2, head?_drop_eq pts j hj]
          have hsp : segPairs (r1.dropLast ++ r2) = segPairs r1 ++ segPairs r2 :=
            segPairs_dropLast_append r1 r2 hr2ne hlink
          intro p hp
          rw [← List.take_append_drop j pts] at hp
          rcases List.mem_append.mp hp with hpl | hpr
          · have hpl' : p ∈ pts.take (j + 1) := by
              rw [take_succ_eq pts j hj]
              exact List.mem_append_left _ hpl
            rcases ih _ _ _ hε hr1 p hpl' with ⟨q, hq, _⟩ | ⟨vw, hm, hd⟩
            · rw [hq] at hr1len; simp at hr1len
            · exact Or.inr ⟨vw, by rw [hsp]; exact List.mem_append_left _ hm, hd⟩
          · rcases ih _ _ _ hε hr2 p hpr with ⟨q, hq, _⟩ | ⟨vw, hm, hd⟩
            · rw [hq] at hr2len; simp at hr2len
            · exact Or.inr ⟨vw, by rw [hsp]; exact List.mem_append_right _ hm, hd⟩
      · rw [if_neg hgt] at h
        obtain rfl : [pts.getD 0 default, pts.getD (pts.length - 1) default] = l :=
          Option.some.inj h
        intro p hp
        obtain ⟨k, hk, rfl⟩ := List.mem_iff_getElem.mp hp
        have hmem : (pts.getD 0 default, pts.getD (pts.length - 1) default) ∈
            segPairs [pts.getD 0 default, pts.getD (pts.length - 1) default] := by
          simp [segPairs]
        rcases Nat.eq_zero_or_pos k with rfl | hk1
        · refine Or.inr ⟨_, hmem, ?_⟩
          rw [show pts[0] = pts.getD 0 default from (List.getD_eq_getElem _ _ hk).symm]
          rw [distToSegment_self_left]
          exact hε
        rcases Nat.lt_or_ge k (pts.length - 1) with hk2 | hk2
        · -- interior index: bounded by the scanned maximum
          refine Or.inr ⟨_, hmem, ?_⟩
          have hle : endSegDist pts k ≤ (rdpFarthest pts).1 := rdpFarthest_ge pts k hk1 hk2
          have : endSegDist pts k ≤ ε := le_trans hle (le_of_not_lt hgt)
          rw [show pts[k] = pts.getD k default from (List.getD_eq_getElem _ _ hk).symm]
          exact this
        · have hkeq : k = pts.length - 1 := by omega
          refine Or.inr ⟨_, hmem, ?_⟩
          subst hkeq
          rw [show pts[pts.length - 1] = pts.getD (pts.length - 1) default from
            (List.getD_eq_getElem _ _ hk).symm]
          rw [distToSegment_self_right]
          exact hε

/-! ### The clamped projection minimizes the distance to the segment -/

theorem quad_clamped_min (C u s : ℝ) (hC : 0 < C) (hs0 : 0 ≤ s) (hs1 : s ≤ 1) :
    C * (max 0 (min 1 u)) ^ 2 - 2 * (u * C) * (max 0 (min 1 u)) ≤
      C * s ^ 2 - 2 * (u * C) * s := by
  by_cases h0 : u ≤ 0
  · rw [min_eq_right (le_trans h0 zero_le_one), max_eq_left h0]
    have k1 : 0 ≤ C * s * s := mul_nonneg (mul_nonneg hC.le hs0) hs0
    have k2 : 0 ≤ (-u) * C * s := mul_nonneg (mul_nonneg (neg_nonneg.2 h0) hC.le) hs0
    nlinarith [k1, k2]
  · by_cases h1 : 1 ≤ u
    · rw [min_eq_left h1, max_eq_right zero_le_one]
      have key : 0 ≤ C * ((1 - s) * (2 * u - s - 1)) :=
        mul_nonneg hC.le (mul_nonneg (by linarith) (by linarith))
      nlinarith [key]
    · push_neg at h0 h1
      rw [min_eq_right h1.le, max_eq_right h0.le]
      have key : 0 ≤ C * ((s - u) * (s - u)) :=
        mul_nonneg hC.le (mul_self_nonneg _)
      nlinarith [key]

theorem seg_min_aux (px py dx dy s : ℝ) (hs0 : 0 ≤ s) (hs1 : s ≤ 1)
    (hC : 0 < dx ^ 2 + dy ^ 2) :
    (px - (max 0 (min 1 ((px * dx + py * dy) / (dx ^ 2 + dy ^ 2)))) * dx) ^ 2 +
      (py - (max 0 (min 1 ((px * dx + py * dy) / (dx ^ 2 + dy ^ 2)))) * dy) ^ 2 ≤
    (px - s * dx) ^ 2 + (py - s * dy) ^ 2 := by
  have hu : ((px * dx + py * dy) / (dx ^ 2 + dy ^ 2)) * (dx ^ 2 + dy ^ 2)
      = px * dx + py * dy := div_mul_cancel₀ _ hC.ne'
  have key := quad_clamped_min (dx ^ 2 + dy ^ 2)
    ((px * dx + py * dy) / (dx ^ 2 + dy ^ 2)) s hC hs0 hs1
  rw [hu] at key
  nlinarith [key]

/-- Claim C8: `distToSegment p v w` is the least distance from `p` to any
point of the closed segment `[v, w]`; when `v = w` it equals
`distance p v`; when the projection parameter falls below `0` (resp.
above `1`) it equals the distance to `v` (resp. `w`), which is then the
nearer endpoint. -/
theorem distToSegment_minimizes (p v w : Point) :
    IsLeast {d : ℝ | ∃ t ∈ Set.Icc (0 : ℝ) 1, d = distance p (segParam v w t)}
      (distToSegment p v w) ∧
    (v = w → distToSegment p v w = distance p v) ∧
    (projParam p v w < 0 →
      distToSegment p v w = distance p v ∧ distance p v ≤ distance p w) ∧
    (1 < projParam p v w →
      distToSegment p v w = distance p w ∧ distance p w ≤ distance p v) := by
  by_cases hvw : (distance v w) ^ 2 = 0
  · -- degenerate segment: v = w
    have hsum : (w.x - v.x) ^ 2 + (w.y - v.y) ^ 2 = 0 := by
      rw [← sq_distance]; exact hvw
    have hveq : v = w := by
      ext
      · nlinarith [sq_nonneg (w.x - v.x), sq_nonneg (w.y - v.y)]
      · nlinarith [sq_nonneg (w.x - v.x), sq_nonneg (w.y - v.y)]
    have hd : distToSegment p v w = distance p v := by
      unfold distToSegment
      rw [if_pos hvw]
    have hseg : ∀ t : ℝ, segParam v w t = v := by
      intro t
      have hx : w.x = v.x := by nlinarith [sq_nonneg (w.x - v.x), sq_nonneg (w.y - v.y)]
      have hy : w.y = v.y := by nlinarith [sq_nonneg (w.x - v.x), sq_nonneg (w.y - v.y)]
      ext <;> simp [segParam, hx, hy]
    have hproj : projParam p v w = 0 := by
      unfold projParam
      rw [hvw, div_zero]
    refine ⟨⟨⟨0, ⟨le_rfl, zero_le_one⟩, by rw [hseg, hd]⟩, ?_⟩, fun _ => hd, ?_, ?_⟩
    · rintro d ⟨t, _, rfl⟩
      rw [hseg, hd]
    · intro hlt; rw [hproj] at hlt; exact absurd hlt (lt_irrefl 0)
    · intro hlt; rw [hproj] at hlt; exact absurd hlt (by norm_num)
  · -- proper segment
    have hCd : (distance v w) ^ 2 = (w.x - v.x) ^ 2 + (w.y - v.y) ^ 2 := sq_distance v w
    have hC0 : (w.x - v.x) ^ 2 + (w.y - v.y) ^ 2 ≠ 0 := by rw [← hCd]; exact hvw
    have hCpos : 0 < (w.x - v.x) ^ 2 + (w.y - v.y) ^ 2 :=
      lt_of_le_of_ne (by positivity) (Ne.symm hC0)
    have hproj : projParam p v w =
        ((p.x - v.x) * (w.x - v.x) + (p.y - v.y) * (w.y - v.y)) /
          ((w.x - v.x) ^ 2 + (w.y - v.y) ^ 2) := by
      unfold projParam
      rw [hCd]
    have hdts : distToSegment p v w =
        distance p (segParam v w (max 0 (min 1 (projParam p v w)))) := by
      unfold distToSegment segParam projParam
      rw [if_neg hvw]
    have hbound : ∀ s ∈ Set.Icc (0 : ℝ) 1,
        distToSegment p v w ≤ distance p (segParam v w s) := by
      rintro s ⟨hs0, hs1⟩
      rw [hdts]
      unfold distance
      apply Real.sqrt_le_sqrt
      have key := seg_min_aux (p.x - v.x) (p.y - v.y) (w.x - v.x) (w.y - v.y) s hs0 hs1 hCpos
      rw [hproj]
      simp only [segParam]
      nlinarith [key]
    refine ⟨⟨⟨max 0 (min 1 (projParam p v w)),
        ⟨le_max_left _ _, max_le zero_le_one (min_le_left _ _)⟩, hdts⟩, ?_⟩, ?_, ?_, ?_⟩
    · rintro d ⟨s, hs, rfl⟩
      exact hbound s hs
    · intro hveq
      exfalso
      apply hvw
      rw [hveq, distance_self]
      norm_num
    · intro hlt
      have ht0 : max 0 (min 1 (projParam p v w)) = 0 := by
        rw [min_eq_right (le_of_lt (lt_of_lt_of_le hlt zero_le_one)), max_eq_left hlt.le]
      have hsv : segParam v w 0 = v := by ext <;> simp [segParam]
      constructor
      · rw [hdts, ht0, hsv]
      · -- v is the nearer endpoint
        have hB : (p.x - v.x) * (w.x - v.x) + (p.y - v.y) * (w.y - v.y) < 0 := by
          rw [hproj] at hlt
          have := mul_neg_of_neg_of_pos hlt hCpos
          rwa [div_mul_cancel₀ _ hC0] at this
        unfold distance
        apply Real.sqrt_le_sqrt
        nlinarith [hB]
    · intro hlt
      have ht1 : max 0 (min 1 (projParam p v w)) = 1 := by
        rw [min_eq_left hlt.le, max_eq_right zero_le_one]
      have hsw : segParam v w 1 = w := by
        ext <;> simp [segParam]
      constructor
      · rw [hdts, ht1, hsw]
      · have hB : (w.x - v.x) ^ 2 + (w.y - v.y) ^ 2 <
            (p.x - v.x) * (w.x - v.x) + (p.y - v.y) * (w.y - v.y) := by
          rw [hproj] at hlt
          have h' := (lt_div_iff₀ hCpos).mp hlt
          linarith [h']
        unfold distance
        apply Real.sqrt_le_sqrt
        nlinarith [hB]

/-! ### Claimed properties of the hit test -/

/-- Claim C7: the hit test is monotonic in the threshold: a hit at
threshold `t` is still a hit at any larger threshold `t'`, bounding box
pre-filter included (the filter box grows with the threshold). -/
theorem isPointNearPath_mono (point : Point) (path : DrawingPath) (t t' : ℝ)
    (htt : t < t') (h : isPointNearPath point path t = true) :
    isPointNearPath point path t' = true := by
  unfold isPointNearPath at h ⊢
  by_cases h2 : path.points.length < 2
  · rw [if_pos h2] at h
    exact absurd h (by simp)
  · rw [if_neg h2] at h ⊢
    by_cases hbox : point.x < minXs path.points - t ∨ point.x > maxXs path.points + t ∨
        point.y < minYs path.points - t ∨ point.y > maxYs path.points + t
    · rw [if_pos hbox] at h
      exact absurd h (by simp)
    · rw [if_neg hbox] at h
      push_neg at hbox
      obtain ⟨hb1, hb2, hb3, hb4⟩ := hbox
      rw [if_neg (by push_neg; refine ⟨by linarith, by linarith, by linarith, by linarith⟩)]
      rw [List.any_eq_true] at h ⊢
      obtain ⟨vw, hm, hd⟩ := h
      rw [decide_eq_true_iff] at hd
      exact ⟨vw, hm, by rw [decide_eq_true_iff]; linarith⟩

/-- Claim C10: the hit test reads only the stroke's point list and width;
color, tool, opacity and the shape flag do not influence the result. -/
theorem isPointNearPath_styling_independent (point : Point) (threshold : ℝ)
    (pts : List Point) (w : ℝ) (c1 c2 : String) (t1 t2 : ToolType) (o1 o2 : ℝ)
    (s1 s2 : Option Bool) :
    isPointNearPath point ⟨pts, c1, w, t1, o1, s1⟩ threshold =
      isPointNearPath point ⟨pts, c2, w, t2, o2, s2⟩ threshold := rfl

/-! ### Claimed properties of the simplifier -/

/-- Claim C2: for a nonnegative tolerance the simplifier terminates and
every input point lies within `ε` of the polyline through the output. -/
theorem simplifyPoints_deviation (pts : List Point) (ε : ℝ) (hε : 0 ≤ ε) :
    ∃ l, simplifyPoints pts ε = some l ∧ ∀ p ∈ pts, nearPolyline p l ε := by
  obtain ⟨l, hl⟩ := Option.isSome_iff_exists.mp (simplifyPoints_isSome pts ε hε)
  exact ⟨l, hl, simplifyAux_near _ _ _ _ hε hl⟩

/-- Claim C6: whatever the simplifier returns is a subsequence of its
input whose first and last elements are exactly the input's first and
last points. -/
theorem simplifyPoints_subsequence (pts : List Point) (ε : ℝ) (l : List Point)
    (h : simplifyPoints pts ε = some l) :
    l.Sublist pts ∧ l.head? = pts.head? ∧ l.getLast? = pts.getLast? :=
  ⟨(simplifyAux_spec _ _ _ _ h).1, (simplifyAux_spec _ _ _ _ h).2.1,
    (simplifyAux_spec _ _ _ _ h).2.2.1⟩

/-! ### Claimed properties of shape recognition -/

/-- Claim C3: an open stroke (at least 10 points, direct distance at
least a quarter of the total length) is recognized as the straight line
`[first, last]` exactly when `totalLength < 1.2 * directDistance`, and
rejected otherwise. -/
theorem recognizeShape_open (pts : List Point) (h10 : 10 ≤ pts.length)
    (hnc : 0.25 * totalLength pts ≤
      distance (pts.getD 0 default) (pts.getD (pts.length - 1) default)) :
    (totalLength pts <
        1.2 * distance (pts.getD 0 default) (pts.getD (pts.length - 1) default) →
      recognizeShape pts = some [pts.getD 0 default, pts.getD (pts.length - 1) default]) ∧
    (1.2 * distance (pts.getD 0 default) (pts.getD (pts.length - 1) default) ≤
        totalLength pts →
      recognizeShape pts = none) := by
  unfold recognizeShape
  rw [if_neg (by omega)]
  rw [if_neg (show ¬ (distance (pts.getD 0 default) (pts.getD (pts.length - 1) default) <
      totalLength pts * 0.25) by intro hlt; linarith)]
  constructor
  · intro hline
    rw [if_pos (by linarith)]
  · intro hge
    rw [if_neg (by intro hlt; linarith)]

/-- Claim C4: a closed stroke whose simplification (at tolerance
`0.05 * diagonal`) has exactly 5 points (`n = 4`) is snapped to the four
axis-aligned bounding-box corners of the original input points, in the
order bottom-left (minX,minY), (maxX,minY), (maxX,maxY), (minX,maxY). -/
theorem recognizeShape_quad (pts : List Point) (h10 : 10 ≤ pts.length)
    (hclosed : distance (pts.getD 0 default) (pts.getD (pts.length - 1) default) <
      totalLength pts * 0.25)
    (h5 : (rsSimplified pts).length = 5) :
    recognizeShape pts = some [⟨minXs pts, minYs pts⟩, ⟨maxXs pts, minYs pts⟩,
      ⟨maxXs pts, maxYs pts⟩, ⟨minXs pts, maxYs pts⟩] := by
  have hn : rsN pts = 4 := by unfold rsN; rw [h5]
  unfold recognizeShape
  rw [if_neg (by omega), if_pos hclosed, hn]
  rw [if_neg (by norm_num : ¬ (4 = 3)), if_pos (rfl : (4 : ℕ) = 4)]

/-- Claim C5: a closed stroke with at least 5 simplified vertices and
coefficient of variation below 0.15 is replaced by the 46-point
(45 segments plus closing point) axis-aligned ellipse with `rx` half the
bounding-box width, `ry` half the height, centred at the bounding-box
center; point `i` is `center + (rx cos(2πi/45), ry sin(2πi/45))` and the
closing point equals the first. -/
theorem recognizeShape_ellipse (pts : List Point) (h10 : 10 ≤ pts.length)
    (hclosed : distance (pts.getD 0 default) (pts.getD (pts.length - 1) default) <
      totalLength pts * 0.25)
    (h5 : 5 ≤ rsN pts) (hcv : rsCv pts < 0.15) :
    recognizeShape pts = some (ellipsePoints pts) ∧
    (ellipsePoints pts).length = 46 ∧
    (∀ i : ℕ, i < 46 → (ellipsePoints pts).getD i default =
      ⟨(rsCenter pts).x + bbWidth pts / 2 * Real.cos (2 * Real.pi * i / 45),
       (rsCenter pts).y + bbHeight pts / 2 * Real.sin (2 * Real.pi * i / 45)⟩) ∧
    (ellipsePoints pts).getD 45 default = (ellipsePoints pts).getD 0 default := by
  have hres : recognizeShape pts = some (ellipsePoints pts) := by
    unfold recognizeShape
    rw [if_neg (by omega), if_pos hclosed,
      if_neg (by omega : ¬ rsN pts = 3), if_neg (by omega : ¬ rsN pts = 4),
      if_pos h5, if_pos hcv]
  have hlen : (ellipsePoints pts).length = 46 := by
    unfold ellipsePoints
    rw [List.length_map, List.length_range]
  have hget : ∀ i : ℕ, i < 46 → (ellipsePoints pts).getD i default =
      ⟨(rsCenter pts).x + bbWidth pts / 2 * Real.cos (2 * Real.pi * i / 45),
       (rsCenter pts).y + bbHeight pts / 2 * Real.sin (2 * Real.pi * i / 45)⟩ := by
    intro i hi
    unfold ellipsePoints
    rw [List.getD_eq_getElem _ _ (by simpa using hi)]
    simp only [List.getElem_map, List.getElem_range]
    have harg : (i : ℝ) / 45 * Real.pi * 2 = 2 * Real.pi * i / 45 := by ring
    rw [harg]
  refine ⟨hres, hlen, hget, ?_⟩
  rw [hget 45 (by norm_num), hget 0 (by norm_num)]
  have h45 : 2 * Real.pi * ((45 : ℕ) : ℝ) / 45 = 2 * Real.pi := by
    push_cast
    rw [mul_div_assoc]
    norm_num
  have h0 : 2 * Real.pi * ((0 : ℕ) : ℝ) / 45 = 0 := by push_cast; ring
  rw [h45, h0, Real.cos_two_pi, Real.sin_two_pi, Real.cos_zero, Real.sin_zero]

/-! ### The coefficient-of-variation divisor is nonzero when reached -/

theorem mem_of_head? {α : Type} (L : List α) (a : α) (h : L.head? = some a) : a ∈ L := by
  cases L with
  | nil => simp at h
  | cons x xs =>
    simp only [List.head?_cons, Option.some.injEq] at h
    rw [← h]
    exact List.mem_cons_self x xs

theorem foldl_add_eq (L : List ℝ) : ∀ a : ℝ, L.foldl (· + ·) a = a + L.sum := by
  induction L with
  | nil => intro a; simp
  | cons x t ih =>
    intro a
    rw [List.foldl_cons, ih, List.sum_cons]
    ring

theorem rsEpsilon_nonneg (pts : List Point) : 0 ≤ rsEpsilon pts :=
  mul_nonneg (Real.sqrt_nonneg _) (by norm_num)

/-- Whenever the `n ≥ 5` branch of `recognizeShape` is reachable, the
mean vertex-to-center distance (the divisor of `cv`) is positive. -/
theorem rsAvg_pos (pts : List Point) (h10 : 10 ≤ pts.length) (h5 : 5 ≤ rsN pts) :
    0 < rsAvg pts := by
  have hε : 0 ≤ rsEpsilon pts := rsEpsilon_nonneg pts
  obtain ⟨l, hl⟩ := Option.isSome_iff_exists.mp (simplifyPoints_isSome pts _ hε)
  have hsimp : rsSimplified pts = l := by unfold rsSimplified; rw [hl]; rfl
  have hlenl : 6 ≤ l.length := by
    have hn : rsN pts = l.length - 1 := by unfold rsN; rw [hsimp]
    omega
  have hl' : simplifyAux (pts.length + 1) pts (rsEpsilon pts) = some l := hl
  rw [simplifyAux_succ, if_neg (by omega : ¬ pts.length < 3)] at hl'
  by_cases hgt : (rdpFarthest pts).1 > rsEpsilon pts
  · rw [if_pos hgt] at hl'
    rcases rdpFarthest_cases pts with hc | ⟨j, hj1, hj2, hc⟩
    · have h0 : (rdpFarthest pts).1 = 0 := by rw [hc]
      rw [h0] at hgt
      linarith
    · have hij : (rdpFarthest pts).2 = j := by rw [hc]
      rw [hij] at hl'
      rcases hr1 : simplifyAux pts.length (pts.take (j + 1)) (rsEpsilon pts) with _ | r1
      · rw [hr1] at hl'; simp at hl'
      rcases hr2 : simplifyAux pts.length (pts.drop j) (rsEpsilon pts) with _ | r2
      · rw [hr1, hr2] at hl'; simp at hl'
      rw [hr1, hr2] at hl'
      have h' : some (r1.dropLast ++ r2) = some l := hl'
      obtain rfl : r1.dropLast ++ r2 = l := Option.some.inj h'
      have hj : j < pts.length := by omega
      have hdm : (rdpFarthest pts).1 = endSegDist pts j := by rw [hc]
      have hdpos : 0 < endSegDist pts j := lt_of_le_of_lt hε (hdm ▸ hgt)
      obtain ⟨_, hh2, _, hlen2⟩ := simplifyAux_spec _ _ _ _ hr2
      have hr2len : 2 ≤ r2.length := hlen2 (by rw [List.length_drop]; omega)
      have hr2ne : r2 ≠ [] := by intro he; rw [he] at hr2len; simp at hr2len
      have hr2head : r2.head? = some (pts.getD j default) := by
        rw [hh2, head?_drop_eq pts j hj]
      have hspec := simplifyAux_spec (pts.length + 1) pts (rsEpsilon pts) _ hl
      have hLhead : (r1.dropLast ++ r2).head? = pts.head? := hspec.2.1
      have hp0 : pts.head? = some (pts.getD 0 default) := by
        match pts, h10 with
        | a :: t, _ => simp
      have htn : (rsSimplified pts).take (rsN pts) = (r1.dropLast ++ r2).dropLast := by
        rw [hsimp, show rsN pts = (r1.dropLast ++ r2).length - 1 from by
          unfold rsN; rw [hsimp]]
        rw [← List.dropLast_eq_take]
      have hdrop2 : (r1.dropLast ++ r2).dropLast = r1.dropLast ++ r2.dropLast :=
        List.dropLast_append_of_ne_nil r1.dropLast hr2ne
      have hm0 : pts.getD 0 default ∈ (rsSimplified pts).take (rsN pts) := by
        rw [htn]
        apply mem_of_head?
        rw [head?_dropLast _ (by rw [List.length_append] at hlenl ⊢; omega), hLhead, hp0]
      have hmj : pts.getD j default ∈ (rsSimplified pts).take (rsN pts) := by
        rw [htn, hdrop2]
        refine List.mem_append_right _ ?_
        apply mem_of_head?
        rw [head?_dropLast r2 hr2len, hr2head]
      have hne_or : pts.getD 0 default ≠ rsCenter pts ∨ pts.getD j default ≠ rsCenter pts := by
        by_contra hcon
        push_neg at hcon
        obtain ⟨he0, hej⟩ := hcon
        have hzero : endSegDist pts j = 0 := by
          unfold endSegDist
          rw [hej, he0]
          exact distToSegment_self_left _ _
        rw [hzero] at hdpos
        exact lt_irrefl 0 hdpos
      obtain ⟨q, hqmem, hqne⟩ :
          ∃ q ∈ (rsSimplified pts).take (rsN pts), q ≠ rsCenter pts := by
        rcases hne_or with h | h
        · exact ⟨_, hm0, h⟩
        · exact ⟨_, hmj, h⟩
      have hqpos : 0 < distance q (rsCenter pts) :=
        lt_of_le_of_ne (distance_nonneg _ _)
          (fun he => hqne ((distance_eq_zero_iff _ _).mp he.symm))
      have hdmem : distance q (rsCenter pts) ∈ rsDists pts := by
        unfold rsDists
        exact List.mem_map_of_mem _ hqmem
      have hnonneg : ∀ x ∈ rsDists pts, 0 ≤ x := by
        intro x hx
        unfold rsDists at hx
        obtain ⟨q', _, rfl⟩ := List.mem_map.mp hx
        exact distance_nonneg _ _
      have hsum : 0 < (rsDists pts).sum :=
        lt_of_lt_of_le hqpos (List.single_le_sum hnonneg _ hdmem)
      unfold rsAvg
      rw [foldl_add_eq, zero_add]
      exact div_pos hsum (by exact_mod_cast Nat.pos_of_ne_zero (by omega))
  · rw [if_neg hgt] at hl'
    have he : [pts.getD 0 default, pts.getD (pts.length - 1) default] = l :=
      Option.some.inj hl'
    rw [← he] at hlenl
    simp at hlenl

/-! ### Divergence of the simplifier at a negative tolerance -/

theorem colPts_farthest : rdpFarthest colPts = (0, 0) := by
  have h1 : rdpFarthest colPts = List.foldl (rdpStep colPts) (0, 0) [1] := rfl
  have he : endSegDist colPts 1 = distToSegment ⟨1, 0⟩ ⟨0, 0⟩ ⟨2, 0⟩ := rfl
  have hd : endSegDist colPts 1 = 0 := by
    rw [he, distToSegment_eval ⟨1, 0⟩ ⟨0, 0⟩ ⟨2, 0⟩ 4 (1 / 2)
      (by norm_num) (by norm_num) (by norm_num)]
    rw [show (0:ℝ) ⊔ 1 ⊓ (1 / 2) = 1 / 2 by
      rw [min_eq_right (by norm_num), max_eq_right (by norm_num)]]
    rw [distance_mk]
    norm_num
  rw [h1, List.foldl_cons, List.foldl_nil, rdpStep_eq, hd]
  rw [if_neg (by norm_num)]

/-- On collinear input with a negative tolerance, the source recursion of
`simplifyPoints` calls itself on the unchanged point list forever: no
fuel yields a result, and the fuelled embedding returns `none`. -/
theorem simplifyPoints_diverges_neg : divergesAt colPts (-1) ∧
    simplifyPoints colPts (-1) = none := by
  have hdiv : divergesAt colPts (-1) := by
    intro fuel
    induction fuel with
    | zero => rfl
    | succ f ihf =>
      rw [simplifyAux_succ]
      rw [if_neg (show ¬ colPts.length < 3 by
        rw [show colPts.length = 3 from rfl]; norm_num)]
      rw [if_pos (show (rdpFarthest colPts).1 > (-1:ℝ) by
        rw [colPts_farthest]; norm_num)]
      rw [show (rdpFarthest colPts).2 = 0 from by rw [colPts_farthest]]
      rw [show colPts.drop 0 = colPts from rfl]
      rw [ihf]
      cases simplifyAux f (colPts.take (0 + 1)) (-1) <;> rfl
  exact ⟨hdiv, hdiv _⟩

/-- Claim C9 (amended): the simplifier returns a value for every
nonnegative tolerance (as in every in-repository call), and the
unguarded division `stdDev / avgDist` in the `n ≥ 5` branch of
`recognizeShape` always has a positive divisor when that branch is
reached. -/
theorem coreOps_total_and_guarded :
    (∀ (pts : List Point) (ε : ℝ), 0 ≤ ε → (simplifyPoints pts ε).isSome) ∧
    (∀ pts : List Point, 10 ≤ pts.length →
      distance (pts.getD 0 default) (pts.getD (pts.length - 1) default) <
        totalLength pts * 0.25 →
      5 ≤ rsN pts → 0 < rsAvg pts) :=
  ⟨fun pts ε hε => simplifyPoints_isSome pts ε hε,
   fun pts h10 _ h5 => rsAvg_pos pts h10 h5⟩

/-! ### The bounding-box pre-filter is not transparent (wide strokes) -/

/-- Claim C1 (refutation at a concrete input): for the wide stroke, the
filtered hit test rejects the point `(0, 8)` at threshold `5` although
the unfiltered per-segment test accepts it (distance 8 is below the hit
radius `5 + 10/2 = 10`, but `8` exceeds `maxY + threshold = 5`). -/
theorem isPointNearPath_filter_not_transparent :
    isPointNearPath ⟨0, 8⟩ widePath 5 = false ∧
      isPointNearPathUnfiltered ⟨0, 8⟩ widePath 5 = true := by
  constructor
  · unfold isPointNearPath
    rw [if_neg (show ¬ widePath.points.length < 2 by
      rw [show widePath.points.length = 2 from rfl]; norm_num)]
    rw [if_pos]
    · right; right; right
      have hmy : maxYs widePath.points = max 0 0 := rfl
      rw [hmy, max_self]
      norm_num
  · unfold isPointNearPathUnfiltered
    rw [show segPairs widePath.points = [(⟨0, 0⟩, ⟨10, 0⟩)] from rfl]
    rw [List.any_cons, List.any_nil]
    have hdist : distToSegment ⟨0, 8⟩ ⟨0, 0⟩ ⟨10, 0⟩ = 8 := by
      rw [distToSegment_eval ⟨0, 8⟩ ⟨0, 0⟩ ⟨10, 0⟩ 100 0
        (by norm_num) (by norm_num) (by norm_num)]
      rw [show (0:ℝ) ⊔ 1 ⊓ 0 = 0 by
        rw [min_eq_right (by norm_num), max_eq_left le_rfl]]
      rw [distance_mk]
      norm_num
      exact sqrt_eq_of_sq 8 64 (by norm_num) (by norm_num)
    show (decide (distToSegment ⟨0, 8⟩ ⟨0, 0⟩ ⟨10, 0⟩ < 5 + (10:ℝ) / 2) || false) = true
    rw [hdist]
    norm_num

/-! ### Evaluation toolkit for the concrete witnesses -/

theorem clamp_of_mem (t : ℝ) (h0 : 0 ≤ t) (h1 : t ≤ 1) : max 0 (min 1 t) = t := by
  rw [min_eq_right h1, max_eq_right h0]

theorem sqrt_lt_sqrt_num (a b : ℝ) (ha : 0 ≤ a) (h : a < b) :
    Real.sqrt a < Real.sqrt b := Real.sqrt_lt_sqrt ha h

theorem not_sqrt_lt_sqrt (a b : ℝ) (h : b ≤ a) : ¬ Real.sqrt a < Real.sqrt b :=
  not_lt.2 (Real.sqrt_le_sqrt h)

theorem distToSegment_eval' (p v w : Point) (c t r : ℝ)
    (hc : (w.x - v.x) ^ 2 + (w.y - v.y) ^ 2 = c) (hc0 : ¬ c = 0)
    (ht : ((p.x - v.x) * (w.x - v.x) + (p.y - v.y) * (w.y - v.y)) / c = t)
    (h0 : 0 ≤ t) (h1 : t ≤ 1)
    (hr : ((v.x + t * (w.x - v.x)) - p.x) ^ 2 + ((v.y + t * (w.y - v.y)) - p.y) ^ 2 = r) :
    distToSegment p v w = Real.sqrt r := by
  rw [distToSegment_eval p v w c t hc hc0 ht, clamp_of_mem t h0 h1]
  unfold distance
  rw [hr]

theorem distToSegment_zero_eval (p v w : Point) (r : ℝ)
    (hc : (w.x - v.x) ^ 2 + (w.y - v.y) ^ 2 = 0)
    (hr : (v.x - p.x) ^ 2 + (v.y - p.y) ^ 2 = r) :
    distToSegment p v w = Real.sqrt r := by
  rw [distToSegment_eval_zero p v w hc]
  unfold distance
  rw [hr]

/-! ### Witnesses for the simplifier claims -/

/-- Witness for claim C2: concrete instance at the collinear triple with
tolerance 0. -/
theorem simplifyPoints_deviation_witness :
    (0 : ℝ) ≤ 0 ∧ ∃ l, simplifyPoints colPts 0 = some l ∧
      ∀ p ∈ colPts, nearPolyline p l 0 :=
  ⟨le_rfl, simplifyPoints_deviation colPts 0 le_rfl⟩

theorem colPts_simplify_eval : simplifyPoints colPts 0 = some [⟨0, 0⟩, ⟨2, 0⟩] := by
  have h0 : simplifyPoints colPts 0 = simplifyAux (3 + 1) colPts 0 := rfl
  rw [h0, simplifyAux_succ]
  rw [if_neg (show ¬ colPts.length < 3 by
    rw [show colPts.length = 3 from rfl]; norm_num)]
  rw [if_neg (show ¬ (rdpFarthest colPts).1 > (0:ℝ) by
    rw [colPts_farthest]; norm_num)]
  rfl

/-- Witness for claim C6: the collinear triple simplifies at tolerance 0
to exactly its endpoints, a subsequence preserving first and last. -/
theorem simplifyPoints_subsequence_witness :
    simplifyPoints colPts 0 = some [⟨0, 0⟩, ⟨2, 0⟩] ∧
    (List.Sublist [(⟨0, 0⟩ : Point), ⟨2, 0⟩] colPts ∧
      [(⟨0, 0⟩ : Point), ⟨2, 0⟩].head? = colPts.head? ∧
      [(⟨0, 0⟩ : Point), ⟨2, 0⟩].getLast? = colPts.getLast?) :=
  ⟨colPts_simplify_eval, simplifyPoints_subsequence colPts 0 _ colPts_simplify_eval⟩

/-! ### Witnesses for the hit-test claims -/

theorem dseg_mid : distToSegment ⟨1, 0⟩ ⟨0, 0⟩ ⟨2, 0⟩ = 0 := by
  rw [distToSegment_eval' ⟨1, 0⟩ ⟨0, 0⟩ ⟨2, 0⟩ 4 (1 / 2) 0
    (by norm_num) (by norm_num) (by norm_num) (by norm_num) (by norm_num) (by norm_num)]
  exact Real.sqrt_zero

theorem thinPath_hit : isPointNearPath ⟨1, 0⟩ thinPath 1 = true := by
  unfold isPointNearPath
  rw [if_neg (show ¬ thinPath.points.length < 2 by
    rw [show thinPath.points.length = 2 from rfl]; norm_num)]
  have hminx : minXs thinPath.points = min 0 2 := rfl
  have hmaxx : maxXs thinPath.points = max 0 2 := rfl
  have hminy : minYs thinPath.points = min 0 0 := rfl
  have hmaxy : maxYs thinPath.points = max 0 0 := rfl
  rw [if_neg (by
    push_neg
    rw [hminx, hmaxx, hminy, hmaxy]
    norm_num [min_def, max_def])]
  rw [show segPairs thinPath.points = [(⟨0, 0⟩, ⟨2, 0⟩)] from rfl]
  rw [List.any_cons, List.any_nil]
  show (decide (distToSegment ⟨1, 0⟩ ⟨0, 0⟩ ⟨2, 0⟩ < 1 + (0:ℝ) / 2) || false) = true
  rw [dseg_mid]
  norm_num

/-- Witness for claim C7: a concrete hit at threshold 1 is still a hit at
threshold 2. -/
theorem isPointNearPath_mono_witness :
    (1 : ℝ) < 2 ∧ isPointNearPath ⟨1, 0⟩ thinPath 1 = true ∧
      isPointNearPath ⟨1, 0⟩ thinPath 2 = true :=
  ⟨by norm_num, thinPath_hit,
    isPointNearPath_mono ⟨1, 0⟩ thinPath 1 2 (by norm_num) thinPath_hit⟩

/-- Witness for claim C8: the characterization instantiated at the point
`(0,1)` and the segment from `(0,0)` to `(2,0)`. -/
theorem distToSegment_minimizes_witness :
    IsLeast {d : ℝ | ∃ t ∈ Set.Icc (0 : ℝ) 1,
        d = distance ⟨0, 1⟩ (segParam ⟨0, 0⟩ ⟨2, 0⟩ t)}
      (distToSegment ⟨0, 1⟩ ⟨0, 0⟩ ⟨2, 0⟩) ∧
    ((⟨0, 0⟩ : Point) = ⟨2, 0⟩ →
      distToSegment ⟨0, 1⟩ ⟨0, 0⟩ ⟨2, 0⟩ = distance ⟨0, 1⟩ ⟨0, 0⟩) ∧
    (projParam ⟨0, 1⟩ ⟨0, 0⟩ ⟨2, 0⟩ < 0 →
      distToSegment ⟨0, 1⟩ ⟨0, 0⟩ ⟨2, 0⟩ = distance ⟨0, 1⟩ ⟨0, 0⟩ ∧
        distance ⟨0, 1⟩ ⟨0, 0⟩ ≤ distance ⟨0, 1⟩ ⟨2, 0⟩) ∧
    (1 < projParam ⟨0, 1⟩ ⟨0, 0⟩ ⟨2, 0⟩ →
      distToSegment ⟨0, 1⟩ ⟨0, 0⟩ ⟨2, 0⟩ = distance ⟨0, 1⟩ ⟨2, 0⟩ ∧
        distance ⟨0, 1⟩ ⟨2, 0⟩ ≤ distance ⟨0, 1⟩ ⟨0, 0⟩) :=
  distToSegment_minimizes ⟨0, 1⟩ ⟨0, 0⟩ ⟨2, 0⟩

/-! ### Witness for the straight-line recognition claim -/

theorem linePts_total : totalLength linePts = 9 := by
  have hstep : ∀ a b : ℝ, b - a = 1 → distance ⟨a, 0⟩ ⟨b, 0⟩ = 1 := by
    intro a b h
    rw [distance_mk, h]
    norm_num
  unfold totalLength
  rw [show segPairs linePts =
    [(⟨0,0⟩,⟨1,0⟩), (⟨1,0⟩,⟨2,0⟩), (⟨2,0⟩,⟨3,0⟩), (⟨3,0⟩,⟨4,0⟩), (⟨4,0⟩,⟨5,0⟩),
     (⟨5,0⟩,⟨6,0⟩), (⟨6,0⟩,⟨7,0⟩), (⟨7,0⟩,⟨8,0⟩), (⟨8,0⟩,⟨9,0⟩)] from rfl]
  simp only [List.foldl_cons, List.foldl_nil]
  rw [hstep 0 1 (by norm_num), hstep 1 2 (by norm_num), hstep 2 3 (by norm_num),
    hstep 3 4 (by norm_num), hstep 4 5 (by norm_num), hstep 5 6 (by norm_num),
    hstep 6 7 (by norm_num), hstep 7 8 (by norm_num), hstep 8 9 (by norm_num)]
  norm_num

theorem linePts_direct :
    distance (linePts.getD 0 default) (linePts.getD (linePts.length - 1) default) = 9 := by
  rw [show linePts.getD 0 default = (⟨0, 0⟩ : Point) from rfl,
    show linePts.getD (linePts.length - 1) default = (⟨9, 0⟩ : Point) from rfl,
    distance_mk]
  norm_num
  exact sqrt_eq_of_sq 9 81 (by norm_num) (by norm_num)

/-- Witness for claim C3: ten collinear points are an open stroke with
`totalLength = directDistance = 9` and are recognized as the straight
line from the first to the last point. -/
theorem recognizeShape_open_witness :
    10 ≤ linePts.length ∧
    0.25 * totalLength linePts ≤
      distance (linePts.getD 0 default) (linePts.getD (linePts.length - 1) default) ∧
    recognizeShape linePts = some [linePts.getD 0 default,
      linePts.getD (linePts.length - 1) default] := by
  have h10 : 10 ≤ linePts.length := by rw [show linePts.length = 10 from rfl]
  refine ⟨h10, by rw [linePts_total, linePts_direct]; norm_num, ?_⟩
  exact (recognizeShape_open linePts h10
    (by rw [linePts_total, linePts_direct]; norm_num)).1
    (by rw [linePts_total, linePts_direct]; norm_num)

/-! ### Generic evaluation steps for small simplifier nodes -/

theorem simplifyAux_two (fuel : ℕ) (a b : Point) (ε : ℝ) :
    simplifyAux (fuel + 1) [a, b] ε = some [a, b] := by
  rw [simplifyAux_succ, if_pos (by simp)]

theorem simplifyAux_three_dup (fuel : ℕ) (a b : Point) (ε : ℝ) (hε : 0 ≤ ε) :
    simplifyAux (fuel + 1) [a, a, b] ε = some [a, b] := by
  rw [simplifyAux_succ]
  rw [if_neg (show ¬ ([a, a, b].length < 3) by simp)]
  have hf : rdpFarthest [a, a, b] = (0, 0) := by
    rw [show rdpFarthest [a, a, b] = List.foldl (rdpStep [a, a, b]) (0, 0) [1] from rfl]
    rw [List.foldl_cons, List.foldl_nil, rdpStep_eq]
    rw [show endSegDist [a, a, b] 1 = distToSegment a a b from rfl, distToSegment_self_left]
    rw [if_neg (by norm_num)]
  rw [if_neg (show ¬ (rdpFarthest [a, a, b]).1 > ε by rw [hf]; exact not_lt.2 hε)]
  rfl

/-! ### Evaluation of the square trace (claim C4 witness) -/

theorem sqPts_minX : minXs sqPts = 0 := by
  norm_num [minXs, sqPts, List.foldl_cons, List.foldl_nil, min_def]

theorem sqPts_maxX : maxXs sqPts = 100 := by
  norm_num [maxXs, sqPts, List.foldl_cons, List.foldl_nil, max_def]

theorem sqPts_minY : minYs sqPts = 0 := by
  norm_num [minYs, sqPts, List.foldl_cons, List.foldl_nil, min_def]

theorem sqPts_maxY : maxYs sqPts = 100 := by
  norm_num [maxYs, sqPts, List.foldl_cons, List.foldl_nil, max_def]

theorem sqPts_eps : rsEpsilon sqPts = Real.sqrt 50 := by
  unfold rsEpsilon rsDiagonal bbWidth bbHeight
  rw [sqPts_maxX, sqPts_minX, sqPts_maxY, sqPts_minY]
  rw [show ((100:ℝ) - 0) * (100 - 0) + (100 - 0) * (100 - 0) = 50 * 400 by norm_num]
  rw [Real.sqrt_mul (by norm_num : (0:ℝ) ≤ 50)]
  rw [sqrt_eq_of_sq 20 400 (by norm_num) (by norm_num)]
  ring

theorem dsq_A : distToSegment ⟨100, 0⟩ ⟨0, 0⟩ ⟨0, 0⟩ = Real.sqrt 10000 :=
  distToSegment_zero_eval _ _ _ _ (by norm_num) (by norm_num)

theorem dsq_B : distToSegment ⟨100, 100⟩ ⟨0, 0⟩ ⟨0, 0⟩ = Real.sqrt 20000 :=
  distToSegment_zero_eval _ _ _ _ (by norm_num) (by norm_num)

theorem dsq_C : distToSegment ⟨0, 100⟩ ⟨0, 0⟩ ⟨0, 0⟩ = Real.sqrt 10000 :=
  distToSegment_zero_eval _ _ _ _ (by norm_num) (by norm_num)

theorem dsq_F : distToSegment ⟨100, 0⟩ ⟨0, 0⟩ ⟨100, 100⟩ = Real.sqrt 5000 :=
  distToSegment_eval' _ _ _ 20000 (1 / 2) 5000
    (by norm_num) (by norm_num) (by norm_num) (by norm_num) (by norm_num) (by norm_num)

theorem dsq_I : distToSegment ⟨0, 100⟩ ⟨100, 100⟩ ⟨0, 0⟩ = Real.sqrt 5000 :=
  distToSegment_eval' _ _ _ 20000 (1 / 2) 5000
    (by norm_num) (by norm_num) (by norm_num) (by norm_num) (by norm_num) (by norm_num)

theorem sqPts_farthest : rdpFarthest sqPts = (Real.sqrt 20000, 4) := by
  have hE1 : endSegDist sqPts 1 = 0 := by
    rw [show endSegDist sqPts 1 = distToSegment ⟨0, 0⟩ ⟨0, 0⟩ ⟨0, 0⟩ from rfl]
    exact distToSegment_self_left _ _
  have hE2 : endSegDist sqPts 2 = Real.sqrt 10000 := by
    rw [show endSegDist sqPts 2 = distToSegment ⟨100, 0⟩ ⟨0, 0⟩ ⟨0, 0⟩ from rfl, dsq_A]
  have hE3 : endSegDist sqPts 3 = Real.sqrt 10000 := by
    rw [show endSegDist sqPts 3 = distToSegment ⟨100, 0⟩ ⟨0, 0⟩ ⟨0, 0⟩ from rfl, dsq_A]
  have hE4 : endSegDist sqPts 4 = Real.sqrt 20000 := by
    rw [show endSegDist sqPts 4 = distToSegment ⟨100, 100⟩ ⟨0, 0⟩ ⟨0, 0⟩ from rfl, dsq_B]
  have hE5 : endSegDist sqPts 5 = Real.sqrt 20000 := by
    rw [show endSegDist sqPts 5 = distToSegment ⟨100, 100⟩ ⟨0, 0⟩ ⟨0, 0⟩ from rfl, dsq_B]
  have hE6 : endSegDist sqPts 6 = Real.sqrt 10000 := by
    rw [show endSegDist sqPts 6 = distToSegment ⟨0, 100⟩ ⟨0, 0⟩ ⟨0, 0⟩ from rfl, dsq_C]
  have hE7 : endSegDist sqPts 7 = Real.sqrt 10000 := by
    rw [show endSegDist sqPts 7 = distToSegment ⟨0, 100⟩ ⟨0, 0⟩ ⟨0, 0⟩ from rfl, dsq_C]
  have hE8 : endSegDist sqPts 8 = 0 := by
    rw [show endSegDist sqPts 8 = distToSegment ⟨0, 0⟩ ⟨0, 0⟩ ⟨0, 0⟩ from rfl]
    exact distToSegment_self_left _ _
  have s1 : rdpStep sqPts (0, 0) 1 = (0, 0) := by
    rw [rdpStep_eq, hE1, if_neg (by norm_num)]
  have s2 : rdpStep sqPts (0, 0) 2 = (Real.sqrt 10000, 2) := by
    rw [rdpStep_eq, hE2, if_pos (by norm_num [Real.sqrt_pos])]
  have s3 : rdpStep sqPts (Real.sqrt 10000, 2) 3 = (Real.sqrt 10000, 2) := by
    rw [rdpStep_eq, hE3, if_neg (lt_irrefl _)]
  have s4 : rdpStep sqPts (Real.sqrt 10000, 2) 4 = (Real.sqrt 20000, 4) := by
    rw [rdpStep_eq, hE4, if_pos (sqrt_lt_sqrt_num 10000 20000 (by norm_num) (by norm_num))]
  have s5 : rdpStep sqPts (Real.sqrt 20000, 4) 5 = (Real.sqrt 20000, 4) := by
    rw [rdpStep_eq, hE5, if_neg (lt_irrefl _)]
  have s6 : rdpStep sqPts (Real.sqrt 20000, 4) 6 = (Real.sqrt 20000, 4) := by
    rw [rdpStep_eq, hE6, if_neg (not_sqrt_lt_sqrt 20000 10000 (by norm_num))]
  have s7 : rdpStep sqPts (Real.sqrt 20000, 4) 7 = (Real.sqrt 20000, 4) := by
    rw [rdpStep_eq, hE7, if_neg (not_sqrt_lt_sqrt 20000 10000 (by norm_num))]
  have s8 : rdpStep sqPts (Real.sqrt 20000, 4) 8 = (Real.sqrt 20000, 4) := by
    rw [rdpStep_eq, hE8, if_neg (not_lt.2 (Real.sqrt_nonneg _))]
  rw [show rdpFarthest sqPts =
    List.foldl (rdpStep sqPts) (0, 0) [1, 2, 3, 4, 5, 6, 7, 8] from rfl]
  rw [List.foldl_cons, s1, List.foldl_cons, s2, List.foldl_cons, s3, List.foldl_cons, s4,
    List.foldl_cons, s5, List.foldl_cons, s6, List.foldl_cons, s7, List.foldl_cons, s8,
    List.foldl_nil]

theorem sqPts_take5_eval :
    simplifyAux 10 [⟨0, 0⟩, ⟨0, 0⟩, ⟨100, 0⟩, ⟨100, 0⟩, ⟨100, 100⟩] (rsEpsilon sqPts) =
      some [⟨0, 0⟩, ⟨100, 0⟩, ⟨100, 100⟩] := by
  have hE1 : endSegDist [⟨0, 0⟩, ⟨0, 0⟩, ⟨100, 0⟩, ⟨100, 0⟩, ⟨100, 100⟩] 1 = 0 := by
    rw [show endSegDist [(⟨0, 0⟩ : Point), ⟨0, 0⟩, ⟨100, 0⟩, ⟨100, 0⟩, ⟨100, 100⟩] 1 =
      distToSegment ⟨0, 0⟩ ⟨0, 0⟩ ⟨100, 100⟩ from rfl]
    exact distToSegment_self_left _ _
  have hE2 : endSegDist [⟨0, 0⟩, ⟨0, 0⟩, ⟨100, 0⟩, ⟨100, 0⟩, ⟨100, 100⟩] 2 =
      Real.sqrt 5000 := by
    rw [show endSegDist [(⟨0, 0⟩ : Point), ⟨0, 0⟩, ⟨100, 0⟩, ⟨100, 0⟩, ⟨100, 100⟩] 2 =
      distToSegment ⟨100, 0⟩ ⟨0, 0⟩ ⟨100, 100⟩ from rfl, dsq_F]
  have hE3 : endSegDist [⟨0, 0⟩, ⟨0, 0⟩, ⟨100, 0⟩, ⟨100, 0⟩, ⟨100, 100⟩] 3 =
      Real.sqrt 5000 := by
    rw [show endSegDist [(⟨0, 0⟩ : Point), ⟨0, 0⟩, ⟨100, 0⟩, ⟨100, 0⟩, ⟨100, 100⟩] 3 =
      distToSegment ⟨100, 0⟩ ⟨0, 0⟩ ⟨100, 100⟩ from rfl, dsq_F]
  have hf : rdpFarthest [⟨0, 0⟩, ⟨0, 0⟩, ⟨100, 0⟩, ⟨100, 0⟩, ⟨100, 100⟩] =
      (Real.sqrt 5000, 2) := by
    rw [show rdpFarthest [(⟨0, 0⟩ : Point), ⟨0, 0⟩, ⟨100, 0⟩, ⟨100, 0⟩, ⟨100, 100⟩] =
      List.foldl (rdpStep [⟨0, 0⟩, ⟨0, 0⟩, ⟨100, 0⟩, ⟨100, 0⟩, ⟨100, 100⟩]) (0, 0)
        [1, 2, 3] from rfl]
    rw [List.foldl_cons, rdpStep_eq, hE1, if_neg (by norm_num)]
    rw [List.foldl_cons, rdpStep_eq, hE2, if_pos (by norm_num [Real.sqrt_pos])]
    rw [List.foldl_cons, rdpStep_eq, hE3, if_neg (lt_irrefl _), List.foldl_nil]
  rw [show (10 : ℕ) = 9 + 1 from rfl, simplifyAux_succ]
  rw [if_neg (by norm_num)]
  rw [if_pos (show (rdpFarthest [(⟨0, 0⟩ : Point), ⟨0, 0⟩, ⟨100, 0⟩, ⟨100, 0⟩,
      ⟨100, 100⟩]).1 > rsEpsilon sqPts by
    rw [hf, sqPts_eps]
    exact sqrt_lt_sqrt_num 50 5000 (by norm_num) (by norm_num))]
  rw [show (rdpFarthest [(⟨0, 0⟩ : Point), ⟨0, 0⟩, ⟨100, 0⟩, ⟨100, 0⟩, ⟨100, 100⟩]).2 = 2
    from by rw [hf]]
  rw [show ([(⟨0, 0⟩ : Point), ⟨0, 0⟩, ⟨100, 0⟩, ⟨100, 0⟩, ⟨100, 100⟩]).take (2 + 1) =
    [⟨0, 0⟩, ⟨0, 0⟩, ⟨100, 0⟩] from rfl]
  rw [show ([(⟨0, 0⟩ : Point), ⟨0, 0⟩, ⟨100, 0⟩, ⟨100, 0⟩, ⟨100, 100⟩]).drop 2 =
    [⟨100, 0⟩, ⟨100, 0⟩, ⟨100, 100⟩] from rfl]
  rw [show (9 : ℕ) = 8 + 1 from rfl]
  rw [simplifyAux_three_dup 8 ⟨0, 0⟩ ⟨100, 0⟩ _ (by rw [sqPts_eps]; exact Real.sqrt_nonneg _)]
  rw [simplifyAux_three_dup 8 ⟨100, 0⟩ ⟨100, 100⟩ _
    (by rw [sqPts_eps]; exact Real.sqrt_nonneg _)]
  rfl

theorem sqPts_tail4_eval :
    simplifyAux 9 [⟨0, 100⟩, ⟨0, 100⟩, ⟨0, 0⟩, ⟨0, 0⟩] (rsEpsilon sqPts) =
      some [⟨0, 100⟩, ⟨0, 0⟩] := by
  have hE1 : endSegDist [⟨0, 100⟩, ⟨0, 100⟩, ⟨0, 0⟩, ⟨0, 0⟩] 1 = 0 := by
    rw [show endSegDist [(⟨0, 100⟩ : Point), ⟨0, 100⟩, ⟨0, 0⟩, ⟨0, 0⟩] 1 =
      distToSegment ⟨0, 100⟩ ⟨0, 100⟩ ⟨0, 0⟩ from rfl]
    exact distToSegment_self_left _ _
  have hE2 : endSegDist [⟨0, 100⟩, ⟨0, 100⟩, ⟨0, 0⟩, ⟨0, 0⟩] 2 = 0 := by
    rw [show endSegDist [(⟨0, 100⟩ : Point), ⟨0, 100⟩, ⟨0, 0⟩, ⟨0, 0⟩] 2 =
      distToSegment ⟨0, 0⟩ ⟨0, 100⟩ ⟨0, 0⟩ from rfl]
    exact distToSegment_self_right _ _
  have hf : rdpFarthest [⟨0, 100⟩, ⟨0, 100⟩, ⟨0, 0⟩, ⟨0, 0⟩] = (0, 0) := by
    rw [show rdpFarthest [(⟨0, 100⟩ : Point), ⟨0, 100⟩, ⟨0, 0⟩, ⟨0, 0⟩] =
      List.foldl (rdpStep [⟨0, 100⟩, ⟨0, 100⟩, ⟨0, 0⟩, ⟨0, 0⟩]) (0, 0) [1, 2] from rfl]
    rw [List.foldl_cons, rdpStep_eq, hE1, if_neg (by norm_num)]
    rw [List.foldl_cons, rdpStep_eq, hE2, if_neg (by norm_num), List.foldl_nil]
  rw [show (9 : ℕ) = 8 + 1 from rfl, simplifyAux_succ]
  rw [if_neg (by norm_num)]
  rw [if_neg (show ¬ (rdpFarthest [(⟨0, 100⟩ : Point), ⟨0, 100⟩, ⟨0, 0⟩, ⟨0, 0⟩]).1 >
      rsEpsilon sqPts by
    rw [hf]
    exact not_lt.2 (rsEpsilon_nonneg sqPts))]
  rfl

theorem sqPts_drop4_eval :
    simplifyAux 10 [⟨100, 100⟩, ⟨100, 100⟩, ⟨0, 100⟩, ⟨0, 100⟩, ⟨0, 0⟩, ⟨0, 0⟩]
      (rsEpsilon sqPts) = some [⟨100, 100⟩, ⟨0, 100⟩, ⟨0, 0⟩] := by
  have hE1 : endSegDist [⟨100, 100⟩, ⟨100, 100⟩, ⟨0, 100⟩, ⟨0, 100⟩, ⟨0, 0⟩, ⟨0, 0⟩] 1 = 0 := by
    rw [show endSegDist [(⟨100, 100⟩ : Point), ⟨100, 100⟩, ⟨0, 100⟩, ⟨0, 100⟩, ⟨0, 0⟩,
      ⟨0, 0⟩] 1 = distToSegment ⟨100, 100⟩ ⟨100, 100⟩ ⟨0, 0⟩ from rfl]
    exact distToSegment_self_left _ _
  have hE2 : endSegDist [⟨100, 100⟩, ⟨100, 100⟩, ⟨0, 100⟩, ⟨0, 100⟩, ⟨0, 0⟩, ⟨0, 0⟩] 2 =
      Real.sqrt 5000 := by
    rw [show endSegDist [(⟨100, 100⟩ : Point), ⟨100, 100⟩, ⟨0, 100⟩, ⟨0, 100⟩, ⟨0, 0⟩,
      ⟨0, 0⟩] 2 = distToSegment ⟨0, 100⟩ ⟨100, 100⟩ ⟨0, 0⟩ from rfl, dsq_I]
  have hE3 : endSegDist [⟨100, 100⟩, ⟨100, 100⟩, ⟨0, 100⟩, ⟨0, 100⟩, ⟨0, 0⟩, ⟨0, 0⟩] 3 =
      Real.sqrt 5000 := by
    rw [show endSegDist [(⟨100, 100⟩ : Point), ⟨100, 100⟩, ⟨0, 100⟩, ⟨0, 100⟩, ⟨0, 0⟩,
      ⟨0, 0⟩] 3 = distToSegment ⟨0, 100⟩ ⟨100, 100⟩ ⟨0, 0⟩ from rfl, dsq_I]
  have hE4 : endSegDist [⟨100, 100⟩, ⟨100, 100⟩, ⟨0, 100⟩, ⟨0, 100⟩, ⟨0, 0⟩, ⟨0, 0⟩] 4 = 0 := by
    rw [show endSegDist [(⟨100, 100⟩ : Point), ⟨100, 100⟩, ⟨0, 100⟩, ⟨0, 100⟩, ⟨0, 0⟩,
      ⟨0, 0⟩] 4 = distToSegment ⟨0, 0⟩ ⟨100, 100⟩ ⟨0, 0⟩ from rfl]
    exact distToSegment_self_right _ _
  have hf : rdpFarthest [⟨100, 100⟩, ⟨100, 100⟩, ⟨0, 100⟩, ⟨0, 100⟩, ⟨0, 0⟩, ⟨0, 0⟩] =
      (Real.sqrt 5000, 2) := by
    rw [show rdpFarthest [(⟨100, 100⟩ : Point), ⟨100, 100⟩, ⟨0, 100⟩, ⟨0, 100⟩, ⟨0, 0⟩,
      ⟨0, 0⟩] = List.foldl
        (rdpStep [⟨100, 100⟩, ⟨100, 100⟩, ⟨0, 100⟩, ⟨0, 100⟩, ⟨0, 0⟩, ⟨0, 0⟩]) (0, 0)
        [1, 2, 3, 4] from rfl]
    rw [List.foldl_cons, rdpStep_eq, hE1, if_neg (by norm_num)]
    rw [List.foldl_cons, rdpStep_eq, hE2, if_pos (by norm_num [Real.sqrt_pos])]
    rw [List.foldl_cons, rdpStep_eq, hE3, if_neg (lt_irrefl _)]
    rw [List.foldl_cons, rdpStep_eq, hE4, if_neg (not_lt.2 (Real.sqrt_nonneg _)),
      List.foldl_nil]
  rw [show (10 : ℕ) = 9 + 1 from rfl, simplifyAux_succ]
  rw [if_neg (by norm_num)]
  rw [if_pos (show (rdpFarthest [(⟨100, 100⟩ : Point), ⟨100, 100⟩, ⟨0, 100⟩, ⟨0, 100⟩,
      ⟨0, 0⟩, ⟨0, 0⟩]).1 > rsEpsilon sqPts by
    rw [hf, sqPts_eps]
    exact sqrt_lt_sqrt_num 50 5000 (by norm_num) (by norm_num))]
  rw [show (rdpFarthest [(⟨100, 100⟩ : Point), ⟨100, 100⟩, ⟨0, 100⟩, ⟨0, 100⟩, ⟨0, 0⟩,
    ⟨0, 0⟩]).2 = 2 from by rw [hf]]
  rw [show ([(⟨100, 100⟩ : Point), ⟨100, 100⟩, ⟨0, 100⟩, ⟨0, 100⟩, ⟨0, 0⟩,
    ⟨0, 0⟩]).take (2 + 1) = [⟨100, 100⟩, ⟨100, 100⟩, ⟨0, 100⟩] from rfl]
  rw [show ([(⟨100, 100⟩ : Point), ⟨100, 100⟩, ⟨0, 100⟩, ⟨0, 100⟩, ⟨0, 0⟩,
    ⟨0, 0⟩]).drop 2 = [⟨0, 100⟩, ⟨0, 100⟩, ⟨0, 0⟩, ⟨0, 0⟩] from by simp]
  rw [show (9 : ℕ) = 8 + 1 from rfl]
  rw [simplifyAux_three_dup 8 ⟨100, 100⟩ ⟨0, 100⟩ _
    (by rw [sqPts_eps]; exact Real.sqrt_nonneg _)]
  rw [show (8 : ℕ) + 1 = 9 from rfl, sqPts_tail4_eval]
  rfl

theorem sqPts_simplified :
    rsSimplified sqPts = [⟨0, 0⟩, ⟨100, 0⟩, ⟨100, 100⟩, ⟨0, 100⟩, ⟨0, 0⟩] := by
  have hsp : simplifyPoints sqPts (rsEpsilon sqPts) =
      some [⟨0, 0⟩, ⟨100, 0⟩, ⟨100, 100⟩, ⟨0, 100⟩, ⟨0, 0⟩] := by
    rw [show simplifyPoints sqPts (rsEpsilon sqPts) =
      simplifyAux (10 + 1) sqPts (rsEpsilon sqPts) from rfl]
    rw [simplifyAux_succ]
    rw [if_neg (show ¬ sqPts.length < 3 by rw [show sqPts.length = 10 from rfl]; norm_num)]
    rw [if_pos (show (rdpFarthest sqPts).1 > rsEpsilon sqPts by
      rw [sqPts_farthest, sqPts_eps]
      exact sqrt_lt_sqrt_num 50 20000 (by norm_num) (by norm_num))]
    rw [show (rdpFarthest sqPts).2 = 4 from by rw [sqPts_farthest]]
    rw [show sqPts.take (4 + 1) = [⟨0, 0⟩, ⟨0, 0⟩, ⟨100, 0⟩, ⟨100, 0⟩, ⟨100, 100⟩] from by
      unfold sqPts; rfl]
    rw [show sqPts.drop 4 = [⟨100, 100⟩, ⟨100, 100⟩, ⟨0, 100⟩, ⟨0, 100⟩, ⟨0, 0⟩, ⟨0, 0⟩]
      from by unfold sqPts; simp]
    rw [sqPts_take5_eval, sqPts_drop4_eval]
    rfl
  unfold rsSimplified
  rw [hsp]
  rfl

theorem sqPts_total : totalLength sqPts = 400 := by
  have h1 : distance ⟨0, 0⟩ ⟨100, 0⟩ = 100 := by
    rw [distance_mk]
    norm_num
    exact sqrt_eq_of_sq 100 10000 (by norm_num) (by norm_num)
  have h2 : distance ⟨100, 0⟩ ⟨100, 100⟩ = 100 := by
    rw [distance_mk]
    norm_num
    exact sqrt_eq_of_sq 100 10000 (by norm_num) (by norm_num)
  have h3 : distance ⟨100, 100⟩ ⟨0, 100⟩ = 100 := by
    rw [distance_mk]
    norm_num
    exact sqrt_eq_of_sq 100 10000 (by norm_num) (by norm_num)
  have h4 : distance ⟨0, 100⟩ ⟨0, 0⟩ = 100 := by
    rw [distance_mk]
    norm_num
    exact sqrt_eq_of_sq 100 10000 (by norm_num) (by norm_num)
  unfold totalLength
  rw [show segPairs sqPts =
    [(⟨0,0⟩,⟨0,0⟩), (⟨0,0⟩,⟨100,0⟩), (⟨100,0⟩,⟨100,0⟩), (⟨100,0⟩,⟨100,100⟩),
     (⟨100,100⟩,⟨100,100⟩), (⟨100,100⟩,⟨0,100⟩), (⟨0,100⟩,⟨0,100⟩),
     (⟨0,100⟩,⟨0,0⟩), (⟨0,0⟩,⟨0,0⟩)] from rfl]
  simp only [List.foldl_cons, List.foldl_nil]
  rw [h1, h2, h3, h4]
  simp only [distance_self]
  norm_num

/-- Witness for claim C4: the 10-point square trace is closed, simplifies
to exactly 5 points, and is snapped to the four bounding-box corners. -/
theorem recognizeShape_quad_witness :
    10 ≤ sqPts.length ∧
    distance (sqPts.getD 0 default) (sqPts.getD (sqPts.length - 1) default) <
      totalLength sqPts * 0.25 ∧
    (rsSimplified sqPts).length = 5 ∧
    recognizeShape sqPts = some [⟨0, 0⟩, ⟨100, 0⟩, ⟨100, 100⟩, ⟨0, 100⟩] := by
  have h10 : 10 ≤ sqPts.length := by rw [show sqPts.length = 10 from rfl]
  have hclosed : distance (sqPts.getD 0 default) (sqPts.getD (sqPts.length - 1) default) <
      totalLength sqPts * 0.25 := by
    rw [show sqPts.getD 0 default = (⟨0, 0⟩ : Point) from rfl,
      show sqPts.getD (sqPts.length - 1) default = (⟨0, 0⟩ : Point) from rfl,
      distance_self, sqPts_total]
    norm_num
  have hlen5 : (rsSimplified sqPts).length = 5 := by rw [sqPts_simplified]; rfl
  refine ⟨h10, hclosed, hlen5, ?_⟩
  rw [recognizeShape_quad sqPts h10 hclosed hlen5]
  rw [sqPts_minX, sqPts_maxX, sqPts_minY, sqPts_maxY]

/-! ### Evaluation of the octagon trace (claims C5 and C9 witnesses) -/

theorem octPts_minX : minXs octPts = -25 := by
  norm_num [minXs, octPts, List.foldl_cons, List.foldl_nil, min_def]

theorem octPts_maxX : maxXs octPts = 25 := by
  norm_num [maxXs, octPts, List.foldl_cons, List.foldl_nil, max_def]

theorem octPts_minY : minYs octPts = -25 := by
  norm_num [minYs, octPts, List.foldl_cons, List.foldl_nil, min_def]

theorem octPts_maxY : maxYs octPts = 25 := by
  norm_num [maxYs, octPts, List.foldl_cons, List.foldl_nil, max_def]

theorem octPts_eps : rsEpsilon octPts = Real.sqrt 12.5 := by
  unfold rsEpsilon rsDiagonal bbWidth bbHeight
  rw [octPts_maxX, octPts_minX, octPts_maxY, octPts_minY]
  rw [show ((25:ℝ) - -25) * (25 - -25) + (25 - -25) * (25 - -25) = 12.5 * 400 by norm_num]
  rw [Real.sqrt_mul (by norm_num : (0:ℝ) ≤ 12.5)]
  rw [sqrt_eq_of_sq 20 400 (by norm_num) (by norm_num)]
  ring

theorem doct_v1 : distToSegment ⟨15, 20⟩ ⟨25, 0⟩ ⟨25, 0⟩ = Real.sqrt 500 :=
  distToSegment_zero_eval _ _ _ _ (by norm_num) (by norm_num)

theorem doct_v2 : distToSegment ⟨0, 25⟩ ⟨25, 0⟩ ⟨25, 0⟩ = Real.sqrt 1250 :=
  distToSegment_zero_eval _ _ _ _ (by norm_num) (by norm_num)

theorem doct_v3 : distToSegment ⟨-15, 20⟩ ⟨25, 0⟩ ⟨25, 0⟩ = Real.sqrt 2000 :=
  distToSegment_zero_eval _ _ _ _ (by norm_num) (by norm_num)

theorem doct_v4 : distToSegment ⟨-25, 0⟩ ⟨25, 0⟩ ⟨25, 0⟩ = Real.sqrt 2500 :=
  distToSegment_zero_eval _ _ _ _ (by norm_num) (by norm_num)

theorem doct_v5 : distToSegment ⟨-15, -20⟩ ⟨25, 0⟩ ⟨25, 0⟩ = Real.sqrt 2000 :=
  distToSegment_zero_eval _ _ _ _ (by norm_num) (by norm_num)

theorem doct_v6 : distToSegment ⟨0, -25⟩ ⟨25, 0⟩ ⟨25, 0⟩ = Real.sqrt 1250 :=
  distToSegment_zero_eval _ _ _ _ (by norm_num) (by norm_num)

theorem doct_v7 : distToSegment ⟨15, -20⟩ ⟨25, 0⟩ ⟨25, 0⟩ = Real.sqrt 500 :=
  distToSegment_zero_eval _ _ _ _ (by norm_num) (by norm_num)

theorem doct_w2 : distToSegment ⟨15, 20⟩ ⟨25, 0⟩ ⟨-25, 0⟩ = Real.sqrt 400 :=
  distToSegment_eval' _ _ _ 2500 (1 / 5) 400
    (by norm_num) (by norm_num) (by norm_num) (by norm_num) (by norm_num) (by norm_num)

theorem doct_w3 : distToSegment ⟨0, 25⟩ ⟨25, 0⟩ ⟨-25, 0⟩ = Real.sqrt 625 :=
  distToSegment_eval' _ _ _ 2500 (1 / 2) 625
    (by norm_num) (by norm_num) (by norm_num) (by norm_num) (by norm_num) (by norm_num)

theorem doct_w4 : distToSegment ⟨-15, 20⟩ ⟨25, 0⟩ ⟨-25, 0⟩ = Real.sqrt 400 :=
  distToSegment_eval' _ _ _ 2500 (4 / 5) 400
    (by norm_num) (by norm_num) (by norm_num) (by norm_num) (by norm_num) (by norm_num)

theorem doct_u1 : distToSegment ⟨15, 20⟩ ⟨25, 0⟩ ⟨0, 25⟩ = Real.sqrt 50 :=
  distToSegment_eval' _ _ _ 1250 (3 / 5) 50
    (by norm_num) (by norm_num) (by norm_num) (by norm_num) (by norm_num) (by norm_num)

theorem doct_u2 : distToSegment ⟨-15, 20⟩ ⟨0, 25⟩ ⟨-25, 0⟩ = Real.sqrt 50 :=
  distToSegment_eval' _ _ _ 1250 (2 / 5) 50
    (by norm_num) (by norm_num) (by norm_num) (by norm_num) (by norm_num) (by norm_num)

theorem doct_x1 : distToSegment ⟨-15, -20⟩ ⟨-25, 0⟩ ⟨25, 0⟩ = Real.sqrt 400 :=
  distToSegment_eval' _ _ _ 2500 (1 / 5) 400
    (by norm_num) (by norm_num) (by norm_num) (by norm_num) (by norm_num) (by norm_num)

theorem doct_x2 : distToSegment ⟨0, -25⟩ ⟨-25, 0⟩ ⟨25, 0⟩ = Real.sqrt 625 :=
  distToSegment_eval' _ _ _ 2500 (1 / 2) 625
    (by norm_num) (by norm_num) (by norm_num) (by norm_num) (by norm_num) (by norm_num)

theorem doct_x3 : distToSegment ⟨15, -20⟩ ⟨-25, 0⟩ ⟨25, 0⟩ = Real.sqrt 400 :=
  distToSegment_eval' _ _ _ 2500 (4 / 5) 400
    (by norm_num) (by norm_num) (by norm_num) (by norm_num) (by norm_num) (by norm_num)

theorem doct_y1 : distToSegment ⟨-15, -20⟩ ⟨-25, 0⟩ ⟨0, -25⟩ = Real.sqrt 50 :=
  distToSegment_eval' _ _ _ 1250 (3 / 5) 50
    (by norm_num) (by norm_num) (by norm_num) (by norm_num) (by norm_num) (by norm_num)

theorem doct_y2 : distToSegment ⟨15, -20⟩ ⟨0, -25⟩ ⟨25, 0⟩ = Real.sqrt 50 :=
  distToSegment_eval' _ _ _ 1250 (2 / 5) 50
    (by norm_num) (by norm_num) (by norm_num) (by norm_num) (by norm_num) (by norm_num)

theorem octPts_farthest : rdpFarthest octPts = (Real.sqrt 2500, 5) := by
  have hE1 : endSegDist octPts 1 = 0 := by
    rw [show endSegDist octPts 1 = distToSegment ⟨25, 0⟩ ⟨25, 0⟩ ⟨25, 0⟩ from rfl]
    exact distToSegment_self_left _ _
  have hE2 : endSegDist octPts 2 = Real.sqrt 500 := by
    rw [show endSegDist octPts 2 = distToSegment ⟨15, 20⟩ ⟨25, 0⟩ ⟨25, 0⟩ from rfl, doct_v1]
  have hE3 : endSegDist octPts 3 = Real.sqrt 1250 := by
    rw [show endSegDist octPts 3 = distToSegment ⟨0, 25⟩ ⟨25, 0⟩ ⟨25, 0⟩ from rfl, doct_v2]
  have hE4 : endSegDist octPts 4 = Real.sqrt 2000 := by
    rw [show endSegDist octPts 4 = distToSegment ⟨-15, 20⟩ ⟨25, 0⟩ ⟨25, 0⟩ from rfl, doct_v3]
  have hE5 : endSegDist octPts 5 = Real.sqrt 2500 := by
    rw [show endSegDist octPts 5 = distToSegment ⟨-25, 0⟩ ⟨25, 0⟩ ⟨25, 0⟩ from rfl, doct_v4]
  have hE6 : endSegDist octPts 6 = Real.sqrt 2000 := by
    rw [show endSegDist octPts 6 = distToSegment ⟨-15, -20⟩ ⟨25, 0⟩ ⟨25, 0⟩ from rfl, doct_v5]
  have hE7 : endSegDist octPts 7 = Real.sqrt 1250 := by
    rw [show endSegDist octPts 7 = distToSegment ⟨0, -25⟩ ⟨25, 0⟩ ⟨25, 0⟩ from rfl, doct_v6]
  have hE8 : endSegDist octPts 8 = Real.sqrt 500 := by
    rw [show endSegDist octPts 8 = distToSegment ⟨15, -20⟩ ⟨25, 0⟩ ⟨25, 0⟩ from rfl, doct_v7]
  rw [show rdpFarthest octPts =
    List.foldl (rdpStep octPts) (0, 0) [1, 2, 3, 4, 5, 6, 7, 8] from rfl]
  rw [List.foldl_cons, rdpStep_eq, hE1, if_neg (by norm_num)]
  rw [List.foldl_cons, rdpStep_eq, hE2, if_pos (by norm_num [Real.sqrt_pos])]
  rw [List.foldl_cons, rdpStep_eq, hE3,
    if_pos (sqrt_lt_sqrt_num 500 1250 (by norm_num) (by norm_num))]
  rw [List.foldl_cons, rdpStep_eq, hE4,
    if_pos (sqrt_lt_sqrt_num 1250 2000 (by norm_num) (by norm_num))]
  rw [List.foldl_cons, rdpStep_eq, hE5,
    if_pos (sqrt_lt_sqrt_num 2000 2500 (by norm_num) (by norm_num))]
  rw [List.foldl_cons, rdpStep_eq, hE6, if_neg (not_sqrt_lt_sqrt 2500 2000 (by norm_num))]
  rw [List.foldl_cons, rdpStep_eq, hE7, if_neg (not_sqrt_lt_sqrt 2500 1250 (by norm_num))]
  rw [List.foldl_cons, rdpStep_eq, hE8, if_neg (not_sqrt_lt_sqrt 2500 500 (by norm_num)),
    List.foldl_nil]

theorem octPts_nodeB :
    simplifyAux 9 [⟨25, 0⟩, ⟨25, 0⟩, ⟨15, 20⟩, ⟨0, 25⟩] (rsEpsilon octPts) =
      some [⟨25, 0⟩, ⟨15, 20⟩, ⟨0, 25⟩] := by
  have hE1 : endSegDist [⟨25, 0⟩, ⟨25, 0⟩, ⟨15, 20⟩, ⟨0, 25⟩] 1 = 0 := by
    rw [show endSegDist [(⟨25, 0⟩ : Point), ⟨25, 0⟩, ⟨15, 20⟩, ⟨0, 25⟩] 1 =
      distToSegment ⟨25, 0⟩ ⟨25, 0⟩ ⟨0, 25⟩ from rfl]
    exact distToSegment_self_left _ _
  have hE2 : endSegDist [⟨25, 0⟩, ⟨25, 0⟩, ⟨15, 20⟩, ⟨0, 25⟩] 2 = Real.sqrt 50 := by
    rw [show endSegDist [(⟨25, 0⟩ : Point), ⟨25, 0⟩, ⟨15, 20⟩, ⟨0, 25⟩] 2 =
      distToSegment ⟨15, 20⟩ ⟨25, 0⟩ ⟨0, 25⟩ from rfl, doct_u1]
  have hf : rdpFarthest [⟨25, 0⟩, ⟨25, 0⟩, ⟨15, 20⟩, ⟨0, 25⟩] = (Real.sqrt 50, 2) := by
    rw [show rdpFarthest [(⟨25, 0⟩ : Point), ⟨25, 0⟩, ⟨15, 20⟩, ⟨0, 25⟩] =
      List.foldl (rdpStep [⟨25, 0⟩, ⟨25, 0⟩, ⟨15, 20⟩, ⟨0, 25⟩]) (0, 0) [1, 2] from rfl]
    rw [List.foldl_cons, rdpStep_eq, hE1, if_neg (by norm_num)]
    rw [List.foldl_cons, rdpStep_eq, hE2, if_pos (by norm_num [Real.sqrt_pos]),
      List.foldl_nil]
  rw [show (9 : ℕ) = 8 + 1 from rfl, simplifyAux_succ]
  rw [if_neg (by norm_num)]
  rw [if_pos (show (rdpFarthest [(⟨25, 0⟩ : Point), ⟨25, 0⟩, ⟨15, 20⟩, ⟨0, 25⟩]).1 >
      rsEpsilon octPts by
    rw [hf, octPts_eps]
    exact sqrt_lt_sqrt_num 12.5 50 (by norm_num) (by norm_num))]
  rw [show (rdpFarthest [(⟨25, 0⟩ : Point), ⟨25, 0⟩, ⟨15, 20⟩, ⟨0, 25⟩]).2 = 2
    from by rw [hf]]
  rw [show ([(⟨25, 0⟩ : Point), ⟨25, 0⟩, ⟨15, 20⟩, ⟨0, 25⟩]).take (2 + 1) =
    [⟨25, 0⟩, ⟨25, 0⟩, ⟨15, 20⟩] from rfl]
  rw [show ([(⟨25, 0⟩ : Point), ⟨25, 0⟩, ⟨15, 20⟩, ⟨0, 25⟩]).drop 2 =
    [⟨15, 20⟩, ⟨0, 25⟩] from by simp]
  rw [show (8 : ℕ) = 7 + 1 from rfl]
  rw [simplifyAux_three_dup 7 ⟨25, 0⟩ ⟨15, 20⟩ _
    (by rw [octPts_eps]; exact Real.sqrt_nonneg _)]
  rw [simplifyAux_two 7 ⟨15, 20⟩ ⟨0, 25⟩]
  rfl

theorem octPts_nodeC :
    simplifyAux 9 [⟨0, 25⟩, ⟨-15, 20⟩, ⟨-25, 0⟩] (rsEpsilon octPts) =
      some [⟨0, 25⟩, ⟨-15, 20⟩, ⟨-25, 0⟩] := by
  have hE1 : endSegDist [⟨0, 25⟩, ⟨-15, 20⟩, ⟨-25, 0⟩] 1 = Real.sqrt 50 := by
    rw [show endSegDist [(⟨0, 25⟩ : Point), ⟨-15, 20⟩, ⟨-25, 0⟩] 1 =
      distToSegment ⟨-15, 20⟩ ⟨0, 25⟩ ⟨-25, 0⟩ from rfl, doct_u2]
  have hf : rdpFarthest [⟨0, 25⟩, ⟨-15, 20⟩, ⟨-25, 0⟩] = (Real.sqrt 50, 1) := by
    rw [show rdpFarthest [(⟨0, 25⟩ : Point), ⟨-15, 20⟩, ⟨-25, 0⟩] =
      List.foldl (rdpStep [⟨0, 25⟩, ⟨-15, 20⟩, ⟨-25, 0⟩]) (0, 0) [1] from rfl]
    rw [List.foldl_cons, rdpStep_eq, hE1, if_pos (by norm_num [Real.sqrt_pos]),
      List.foldl_nil]
  rw [show (9 : ℕ) = 8 + 1 from rfl, simplifyAux_succ]
  rw [if_neg (by norm_num)]
  rw [if_pos (show (rdpFarthest [(⟨0, 25⟩ : Point), ⟨-15, 20⟩, ⟨-25, 0⟩]).1 >
      rsEpsilon octPts by
    rw [hf, octPts_eps]
    exact sqrt_lt_sqrt_num 12.5 50 (by norm_num) (by norm_num))]
  rw [show (rdpFarthest [(⟨0, 25⟩ : Point), ⟨-15, 20⟩, ⟨-25, 0⟩]).2 = 1 from by rw [hf]]
  rw [show ([(⟨0, 25⟩ : Point), ⟨-15, 20⟩, ⟨-25, 0⟩]).take (1 + 1) =
    [⟨0, 25⟩, ⟨-15, 20⟩] from rfl]
  rw [show ([(⟨0, 25⟩ : Point), ⟨-15, 20⟩, ⟨-25, 0⟩]).drop 1 =
    [⟨-15, 20⟩, ⟨-25, 0⟩] from by simp]
  rw [show (8 : ℕ) = 7 + 1 from rfl]
  rw [simplifyAux_two 7 ⟨0, 25⟩ ⟨-15, 20⟩, simplifyAux_two 7 ⟨-15, 20⟩ ⟨-25, 0⟩]
  rfl

theorem octPts_nodeA :
    simplifyAux 10 [⟨25, 0⟩, ⟨25, 0⟩, ⟨15, 20⟩, ⟨0, 25⟩, ⟨-15, 20⟩, ⟨-25, 0⟩]
      (rsEpsilon octPts) =
      some [⟨25, 0⟩, ⟨15, 20⟩, ⟨0, 25⟩, ⟨-15, 20⟩, ⟨-25, 0⟩] := by
  have hE1 : endSegDist [⟨25, 0⟩, ⟨25, 0⟩, ⟨15, 20⟩, ⟨0, 25⟩, ⟨-15, 20⟩, ⟨-25, 0⟩] 1 = 0 := by
    rw [show endSegDist [(⟨25, 0⟩ : Point), ⟨25, 0⟩, ⟨15, 20⟩, ⟨0, 25⟩, ⟨-15, 20⟩,
      ⟨-25, 0⟩] 1 = distToSegment ⟨25, 0⟩ ⟨25, 0⟩ ⟨-25, 0⟩ from rfl]
    exact distToSegment_self_left _ _
  have hE2 : endSegDist [⟨25, 0⟩, ⟨25, 0⟩, ⟨15, 20⟩, ⟨0, 25⟩, ⟨-15, 20⟩, ⟨-25, 0⟩] 2 =
      Real.sqrt 400 := by
    rw [show endSegDist [(⟨25, 0⟩ : Point), ⟨25, 0⟩, ⟨15, 20⟩, ⟨0, 25⟩, ⟨-15, 20⟩,
      ⟨-25, 0⟩] 2 = distToSegment ⟨15, 20⟩ ⟨25, 0⟩ ⟨-25, 0⟩ from rfl, doct_w2]
  have hE3 : endSegDist [⟨25, 0⟩, ⟨25, 0⟩, ⟨15, 20⟩, ⟨0, 25⟩, ⟨-15, 20⟩, ⟨-25, 0⟩] 3 =
      Real.sqrt 625 := by
    rw [show endSegDist [(⟨25, 0⟩ : Point), ⟨25, 0⟩, ⟨15, 20⟩, ⟨0, 25⟩, ⟨-15, 20⟩,
      ⟨-25, 0⟩] 3 = distToSegment ⟨0, 25⟩ ⟨25, 0⟩ ⟨-25, 0⟩ from rfl, doct_w3]
  have hE4 : endSegDist [⟨25, 0⟩, ⟨25, 0⟩, ⟨15, 20⟩, ⟨0, 25⟩, ⟨-15, 20⟩, ⟨-25, 0⟩] 4 =
      Real.sqrt 400 := by
    rw [show endSegDist [(⟨25, 0⟩ : Point), ⟨25, 0⟩, ⟨15, 20⟩, ⟨0, 25⟩, ⟨-15, 20⟩,
      ⟨-25, 0⟩] 4 = distToSegment ⟨-15, 20⟩ ⟨25, 0⟩ ⟨-25, 0⟩ from rfl, doct_w4]
  have hf : rdpFarthest [⟨25, 0⟩, ⟨25, 0⟩, ⟨15, 20⟩, ⟨0, 25⟩, ⟨-15, 20⟩, ⟨-25, 0⟩] =
      (Real.sqrt 625, 3) := by
    rw [show rdpFarthest [(⟨25, 0⟩ : Point), ⟨25, 0⟩, ⟨15, 20⟩, ⟨0, 25⟩, ⟨-15, 20⟩,
      ⟨-25, 0⟩] = List.foldl
        (rdpStep [⟨25, 0⟩, ⟨25, 0⟩, ⟨15, 20⟩, ⟨0, 25⟩, ⟨-15, 20⟩, ⟨-25, 0⟩]) (0, 0)
        [1, 2, 3, 4] from rfl]
    rw [List.foldl_cons, rdpStep_eq, hE1, if_neg (by norm_num)]
    rw [List.foldl_cons, rdpStep_eq, hE2, if_pos (by norm_num [Real.sqrt_pos])]
    rw [List.foldl_cons, rdpStep_eq, hE3,
      if_pos (sqrt_lt_sqrt_num 400 625 (by norm_num) (by norm_num))]
    rw [List.foldl_cons, rdpStep_eq, hE4, if_neg (not_sqrt_lt_sqrt 625 400 (by norm_num)),
      List.foldl_nil]
  rw [show (10 : ℕ) = 9 + 1 from rfl, simplifyAux_succ]
  rw [if_neg (by norm_num)]
  rw [if_pos (show (rdpFarthest [(⟨25, 0⟩ : Point), ⟨25, 0⟩, ⟨15, 20⟩, ⟨0, 25⟩, ⟨-15, 20⟩,
      ⟨-25, 0⟩]).1 > rsEpsilon octPts by
    rw [hf, octPts_eps]
    exact sqrt_lt_sqrt_num 12.5 625 (by norm_num) (by norm_num))]
  rw [show (rdpFarthest [(⟨25, 0⟩ : Point), ⟨25, 0⟩, ⟨15, 20⟩, ⟨0, 25⟩, ⟨-15, 20⟩,
    ⟨-25, 0⟩]).2 = 3 from by rw [hf]]
  rw [show ([(⟨25, 0⟩ : Point), ⟨25, 0⟩, ⟨15, 20⟩, ⟨0, 25⟩, ⟨-15, 20⟩,
    ⟨-25, 0⟩]).take (3 + 1) = [⟨25, 0⟩, ⟨25, 0⟩, ⟨15, 20⟩, ⟨0, 25⟩] from rfl]
  rw [show ([(⟨25, 0⟩ : Point), ⟨25, 0⟩, ⟨15, 20⟩, ⟨0, 25⟩, ⟨-15, 20⟩,
    ⟨-25, 0⟩]).drop 3 = [⟨0, 25⟩, ⟨-15, 20⟩, ⟨-25, 0⟩] from by simp]
  rw [octPts_nodeB, octPts_nodeC]
  rfl

theorem octPts_nodeE :
    simplifyAux 9 [⟨-25, 0⟩, ⟨-15, -20⟩, ⟨0, -25⟩] (rsEpsilon octPts) =
      some [⟨-25, 0⟩, ⟨-15, -20⟩, ⟨0, -25⟩] := by
  have hE1 : endSegDist [⟨-25, 0⟩, ⟨-15, -20⟩, ⟨0, -25⟩] 1 = Real.sqrt 50 := by
    rw [show endSegDist [(⟨-25, 0⟩ : Point), ⟨-15, -20⟩, ⟨0, -25⟩] 1 =
      distToSegment ⟨-15, -20⟩ ⟨-25, 0⟩ ⟨0, -25⟩ from rfl, doct_y1]
  have hf : rdpFarthest [⟨-25, 0⟩, ⟨-15, -20⟩, ⟨0, -25⟩] = (Real.sqrt 50, 1) := by
    rw [show rdpFarthest [(⟨-25, 0⟩ : Point), ⟨-15, -20⟩, ⟨0, -25⟩] =
      List.foldl (rdpStep [⟨-25, 0⟩, ⟨-15, -20⟩, ⟨0, -25⟩]) (0, 0) [1] from rfl]
    rw [List.foldl_cons, rdpStep_eq, hE1, if_pos (by norm_num [Real.sqrt_pos]),
      List.foldl_nil]
  rw [show (9 : ℕ) = 8 + 1 from rfl, simplifyAux_succ]
  rw [if_neg (by norm_num)]
  rw [if_pos (show (rdpFarthest [(⟨-25, 0⟩ : Point), ⟨-15, -20⟩, ⟨0, -25⟩]).1 >
      rsEpsilon octPts by
    rw [hf, octPts_eps]
    exact sqrt_lt_sqrt_num 12.5 50 (by norm_num) (by norm_num))]
  rw [show (rdpFarthest [(⟨-25, 0⟩ : Point), ⟨-15, -20⟩, ⟨0, -25⟩]).2 = 1 from by rw [hf]]
  rw [show ([(⟨-25, 0⟩ : Point), ⟨-15, -20⟩, ⟨0, -25⟩]).take (1 + 1) =
    [⟨-25, 0⟩, ⟨-15, -20⟩] from rfl]
  rw [show ([(⟨-25, 0⟩ : Point), ⟨-15, -20⟩, ⟨0, -25⟩]).drop 1 =
    [⟨-15, -20⟩, ⟨0, -25⟩] from by simp]
  rw [show (8 : ℕ) = 7 + 1 from rfl]
  rw [simplifyAux_two 7 ⟨-25, 0⟩ ⟨-15, -20⟩, simplifyAux_two 7 ⟨-15, -20⟩ ⟨0, -25⟩]
  rfl

theorem octPts_nodeF :
    simplifyAux 9 [⟨0, -25⟩, ⟨15, -20⟩, ⟨25, 0⟩] (rsEpsilon octPts) =
      some [⟨0, -25⟩, ⟨15, -20⟩, ⟨25, 0⟩] := by
  have hE1 : endSegDist [⟨0, -25⟩, ⟨15, -20⟩, ⟨25, 0⟩] 1 = Real.sqrt 50 := by
    rw [show endSegDist [(⟨0, -25⟩ : Point), ⟨15, -20⟩, ⟨25, 0⟩] 1 =
      distToSegment ⟨15, -20⟩ ⟨0, -25⟩ ⟨25, 0⟩ from rfl, doct_y2]
  have hf : rdpFarthest [⟨0, -25⟩, ⟨15, -20⟩, ⟨25, 0⟩] = (Real.sqrt 50, 1) := by
    rw [show rdpFarthest [(⟨0, -25⟩ : Point), ⟨15, -20⟩, ⟨25, 0⟩] =
      List.foldl (rdpStep [⟨0, -25⟩, ⟨15, -20⟩, ⟨25, 0⟩]) (0, 0) [1] from rfl]
    rw [List.foldl_cons, rdpStep_eq, hE1, if_pos (by norm_num [Real.sqrt_pos]),
      List.foldl_nil]
  rw [show (9 : ℕ) = 8 + 1 from rfl, simplifyAux_succ]
  rw [if_neg (by norm_num)]
  rw [if_pos (show (rdpFarthest [(⟨0, -25⟩ : Point), ⟨15, -20⟩, ⟨25, 0⟩]).1 >
      rsEpsilon octPts by
    rw [hf, octPts_eps]
    exact sqrt_lt_sqrt_num 12.5 50 (by norm_num) (by norm_num))]
  rw [show (rdpFarthest [(⟨0, -25⟩ : Point), ⟨15, -20⟩, ⟨25, 0⟩]).2 = 1 from by rw [hf]]
  rw [show ([(⟨0, -25⟩ : Point), ⟨15, -20⟩, ⟨25, 0⟩]).take (1 + 1) =
    [⟨0, -25⟩, ⟨15, -20⟩] from rfl]
  rw [show ([(⟨0, -25⟩ : Point), ⟨15, -20⟩, ⟨25, 0⟩]).drop 1 =
    [⟨15, -20⟩, ⟨25, 0⟩] from by simp]
  rw [show (8 : ℕ) = 7 + 1 from rfl]
  rw [simplifyAux_two 7 ⟨0, -25⟩ ⟨15, -20⟩, simplifyAux_two 7 ⟨15, -20⟩ ⟨25, 0⟩]
  rfl

theorem octPts_nodeD :
    simplifyAux 10 [⟨-25, 0⟩, ⟨-15, -20⟩, ⟨0, -25⟩, ⟨15, -20⟩, ⟨25, 0⟩]
      (rsEpsilon octPts) =
      some [⟨-25, 0⟩, ⟨-15, -20⟩, ⟨0, -25⟩, ⟨15, -20⟩, ⟨25, 0⟩] := by
  have hE1 : endSegDist [⟨-25, 0⟩, ⟨-15, -20⟩, ⟨0, -25⟩, ⟨15, -20⟩, ⟨25, 0⟩] 1 =
      Real.sqrt 400 := by
    rw [show endSegDist [(⟨-25, 0⟩ : Point), ⟨-15, -20⟩, ⟨0, -25⟩, ⟨15, -20⟩, ⟨25, 0⟩] 1 =
      distToSegment ⟨-15, -20⟩ ⟨-25, 0⟩ ⟨25, 0⟩ from rfl, doct_x1]
  have hE2 : endSegDist [⟨-25, 0⟩, ⟨-15, -20⟩, ⟨0, -25⟩, ⟨15, -20⟩, ⟨25, 0⟩] 2 =
      Real.sqrt 625 := by
    rw [show endSegDist [(⟨-25, 0⟩ : Point), ⟨-15, -20⟩, ⟨0, -25⟩, ⟨15, -20⟩, ⟨25, 0⟩] 2 =
      distToSegment ⟨0, -25⟩ ⟨-25, 0⟩ ⟨25, 0⟩ from rfl, doct_x2]
  have hE3 : endSegDist [⟨-25, 0⟩, ⟨-15, -20⟩, ⟨0, -25⟩, ⟨15, -20⟩, ⟨25, 0⟩] 3 =
      Real.sqrt 400 := by
    rw [show endSegDist [(⟨-25, 0⟩ : Point), ⟨-15, -20⟩, ⟨0, -25⟩, ⟨15, -20⟩, ⟨25, 0⟩] 3 =
      distToSegment ⟨15, -20⟩ ⟨-25, 0⟩ ⟨25, 0⟩ from rfl, doct_x3]
  have hf : rdpFarthest [⟨-25, 0⟩, ⟨-15, -20⟩, ⟨0, -25⟩, ⟨15, -20⟩, ⟨25, 0⟩] =
      (Real.sqrt 625, 2) := by
    rw [show rdpFarthest [(⟨-25, 0⟩ : Point), ⟨-15, -20⟩, ⟨0, -25⟩, ⟨15, -20⟩, ⟨25, 0⟩] =
      List.foldl (rdpStep [⟨-25, 0⟩, ⟨-15, -20⟩, ⟨0, -25⟩, ⟨15, -20⟩, ⟨25, 0⟩]) (0, 0)
        [1, 2, 3] from rfl]
    rw [List.foldl_cons, rdpStep_eq, hE1, if_pos (by norm_num [Real.sqrt_pos])]
    rw [List.foldl_cons, rdpStep_eq, hE2,
      if_pos (sqrt_lt_sqrt_num 400 625 (by norm_num) (by norm_num))]
    rw [List.foldl_cons, rdpStep_eq, hE3, if_neg (not_sqrt_lt_sqrt 625 400 (by norm_num)),
      List.foldl_nil]
  rw [show (10 : ℕ) = 9 + 1 from rfl, simplifyAux_succ]
  rw [if_neg (by norm_num)]
  rw [if_pos (show (rdpFarthest [(⟨-25, 0⟩ : Point), ⟨-15, -20⟩, ⟨0, -25⟩, ⟨15, -20⟩,
      ⟨25, 0⟩]).1 > rsEpsilon octPts by
    rw [hf, octPts_eps]
    exact sqrt_lt_sqrt_num 12.5 625 (by norm_num) (by norm_num))]
  rw [show (rdpFarthest [(⟨-25, 0⟩ : Point), ⟨-15, -20⟩, ⟨0, -25⟩, ⟨15, -20⟩,
    ⟨25, 0⟩]).2 = 2 from by rw [hf]]
  rw [show ([(⟨-25, 0⟩ : Point), ⟨-15, -20⟩, ⟨0, -25⟩, ⟨15, -20⟩, ⟨25, 0⟩]).take (2 + 1) =
    [⟨-25, 0⟩, ⟨-15, -20⟩, ⟨0, -25⟩] from rfl]
  rw [show ([(⟨-25, 0⟩ : Point), ⟨-15, -20⟩, ⟨0, -25⟩, ⟨15, -20⟩, ⟨25, 0⟩]).drop 2 =
    [⟨0, -25⟩, ⟨15, -20⟩, ⟨25, 0⟩] from by simp]
  rw [octPts_nodeE, octPts_nodeF]
  rfl

theorem octPts_simplified :
    rsSimplified octPts = [⟨25, 0⟩, ⟨15, 20⟩, ⟨0, 25⟩, ⟨-15, 20⟩, ⟨-25, 0⟩,
      ⟨-15, -20⟩, ⟨0, -25⟩, ⟨15, -20⟩, ⟨25, 0⟩] := by
  have hsp : simplifyPoints octPts (rsEpsilon octPts) =
      some [⟨25, 0⟩, ⟨15, 20⟩, ⟨0, 25⟩, ⟨-15, 20⟩, ⟨-25, 0⟩,
        ⟨-15, -20⟩, ⟨0, -25⟩, ⟨15, -20⟩, ⟨25, 0⟩] := by
    rw [show simplifyPoints octPts (rsEpsilon octPts) =
      simplifyAux (10 + 1) octPts (rsEpsilon octPts) from rfl]
    rw [simplifyAux_succ]
    rw [if_neg (show ¬ octPts.length < 3 by rw [show octPts.length = 10 from rfl]; norm_num)]
    rw [if_pos (show (rdpFarthest octPts).1 > rsEpsilon octPts by
      rw [octPts_farthest, octPts_eps]
      exact sqrt_lt_sqrt_num 12.5 2500 (by norm_num) (by norm_num))]
    rw [show (rdpFarthest octPts).2 = 5 from by rw [octPts_farthest]]
    rw [show octPts.take (5 + 1) =
      [⟨25, 0⟩, ⟨25, 0⟩, ⟨15, 20⟩, ⟨0, 25⟩, ⟨-15, 20⟩, ⟨-25, 0⟩] from by
      unfold octPts; rfl]
    rw [show octPts.drop 5 =
      [⟨-25, 0⟩, ⟨-15, -20⟩, ⟨0, -25⟩, ⟨15, -20⟩, ⟨25, 0⟩] from by unfold octPts; simp]
    rw [octPts_nodeA, octPts_nodeD]
    rfl
  unfold rsSimplified
  rw [hsp]
  rfl

theorem octPts_len10 : 10 ≤ octPts.length := by
  rw [show octPts.length = 10 from rfl]

theorem octPts_n : rsN octPts = 8 := by
  unfold rsN
  rw [octPts_simplified]
  rfl

theorem octPts_center : rsCenter octPts = ⟨0, 0⟩ := by
  unfold rsCenter bbWidth bbHeight
  rw [octPts_minX, octPts_maxX, octPts_minY, octPts_maxY]
  simp only [Point.mk.injEq]
  norm_num

theorem octPts_dists : rsDists octPts = [25, 25, 25, 25, 25, 25, 25, 25] := by
  have hd25 : ∀ a b : ℝ, (0 - a) ^ 2 + (0 - b) ^ 2 = 625 → distance ⟨a, b⟩ ⟨0, 0⟩ = 25 := by
    intro a b h
    rw [distance_mk, h]
    exact sqrt_eq_of_sq 25 625 (by norm_num) (by norm_num)
  unfold rsDists
  rw [octPts_simplified, octPts_n, octPts_center]
  rw [show ([(⟨25, 0⟩ : Point), ⟨15, 20⟩, ⟨0, 25⟩, ⟨-15, 20⟩, ⟨-25, 0⟩,
    ⟨-15, -20⟩, ⟨0, -25⟩, ⟨15, -20⟩, ⟨25, 0⟩]).take 8 =
    [⟨25, 0⟩, ⟨15, 20⟩, ⟨0, 25⟩, ⟨-15, 20⟩, ⟨-25, 0⟩, ⟨-15, -20⟩, ⟨0, -25⟩,
      ⟨15, -20⟩] from rfl]
  simp only [List.map_cons, List.map_nil]
  rw [hd25 25 0 (by norm_num), hd25 15 20 (by norm_num), hd25 0 25 (by norm_num),
    hd25 (-15) 20 (by norm_num), hd25 (-25) 0 (by norm_num), hd25 (-15) (-20) (by norm_num),
    hd25 0 (-25) (by norm_num), hd25 15 (-20) (by norm_num)]

theorem octPts_avg : rsAvg octPts = 25 := by
  unfold rsAvg
  rw [octPts_dists, octPts_n]
  norm_num [List.foldl_cons, List.foldl_nil]

theorem octPts_cv : rsCv octPts = 0 := by
  have hvar : rsVariance octPts = 0 := by
    unfold rsVariance
    rw [octPts_dists, octPts_avg, octPts_n]
    norm_num [List.foldl_cons, List.foldl_nil]
  unfold rsCv rsStdDev
  rw [hvar, Real.sqrt_zero, octPts_avg]
  norm_num

theorem octPts_closed :
    distance (octPts.getD 0 default) (octPts.getD (octPts.length - 1) default) <
      totalLength octPts * 0.25 := by
  have e01 : distance ⟨25, 0⟩ ⟨15, 20⟩ = Real.sqrt 500 := by rw [distance_mk]; norm_num
  have e12 : distance ⟨15, 20⟩ ⟨0, 25⟩ = Real.sqrt 250 := by rw [distance_mk]; norm_num
  have e23 : distance ⟨0, 25⟩ ⟨-15, 20⟩ = Real.sqrt 250 := by rw [distance_mk]; norm_num
  have e34 : distance ⟨-15, 20⟩ ⟨-25, 0⟩ = Real.sqrt 500 := by rw [distance_mk]; norm_num
  have e45 : distance ⟨-25, 0⟩ ⟨-15, -20⟩ = Real.sqrt 500 := by rw [distance_mk]; norm_num
  have e56 : distance ⟨-15, -20⟩ ⟨0, -25⟩ = Real.sqrt 250 := by rw [distance_mk]; norm_num
  have e67 : distance ⟨0, -25⟩ ⟨15, -20⟩ = Real.sqrt 250 := by rw [distance_mk]; norm_num
  have e70 : distance ⟨15, -20⟩ ⟨25, 0⟩ = Real.sqrt 500 := by rw [distance_mk]; norm_num
  have htot : totalLength octPts = 4 * Real.sqrt 500 + 4 * Real.sqrt 250 := by
    unfold totalLength
    rw [show segPairs octPts =
      [(⟨25,0⟩,⟨25,0⟩), (⟨25,0⟩,⟨15,20⟩), (⟨15,20⟩,⟨0,25⟩), (⟨0,25⟩,⟨-15,20⟩),
       (⟨-15,20⟩,⟨-25,0⟩), (⟨-25,0⟩,⟨-15,-20⟩), (⟨-15,-20⟩,⟨0,-25⟩),
       (⟨0,-25⟩,⟨15,-20⟩), (⟨15,-20⟩,⟨25,0⟩)] from rfl]
    simp only [List.foldl_cons, List.foldl_nil]
    rw [distance_self, e01, e12, e23, e34, e45, e56, e67, e70]
    ring
  rw [show octPts.getD 0 default = (⟨25, 0⟩ : Point) from rfl,
    show octPts.getD (octPts.length - 1) default = (⟨25, 0⟩ : Point) from rfl,
    distance_self, htot]
  have h1 : 0 < Real.sqrt 500 := Real.sqrt_pos.mpr (by norm_num)
  have h2 : 0 < Real.sqrt 250 := Real.sqrt_pos.mpr (by norm_num)
  nlinarith [h1, h2]

/-- Witness for claim C5: the 10-point octagon trace is closed, has 8
simplified vertices all at distance 25 from the bounding-box center
(`cv = 0 < 0.15`), and is replaced by the 46-point ellipse. -/
theorem recognizeShape_ellipse_witness :
    10 ≤ octPts.length ∧
    distance (octPts.getD 0 default) (octPts.getD (octPts.length - 1) default) <
      totalLength octPts * 0.25 ∧
    5 ≤ rsN octPts ∧ rsCv octPts < 0.15 ∧
    recognizeShape octPts = some (ellipsePoints octPts) ∧
    (ellipsePoints octPts).length = 46 := by
  have h5 : 5 ≤ rsN octPts := by rw [octPts_n]; norm_num
  have hcv : rsCv octPts < 0.15 := by rw [octPts_cv]; norm_num
  have hmain := recognizeShape_ellipse octPts octPts_len10 octPts_closed h5 hcv
  exact ⟨octPts_len10, octPts_closed, h5, hcv, hmain.1, hmain.2.1⟩

/-- Witness for claim C9 (amended): the simplifier is defined on the empty
list at tolerance 0, and on the octagon trace the `cv` divisor is
positive. -/
theorem coreOps_total_and_guarded_witness :
    (simplifyPoints ([] : List Point) 0).isSome ∧ 0 < rsAvg octPts :=
  ⟨coreOps_total_and_guarded.1 [] 0 le_rfl,
   coreOps_total_and_guarded.2 octPts octPts_len10 octPts_closed
     (by rw [octPts_n]; norm_num)⟩

end MathTutor
